import Mathlib

set_option maxHeartbeats 1000000
set_option maxRecDepth 100000

/-!
Verification of the RAG orchestration core of the fastapi UniBot server
(`agent_processor.py`, `main.py`) against its natural-language specification.

The Python code is shallowly embedded: Python values are modelled by the
inductive `PyVal`, Python dictionaries by association lists with string keys,
raised exceptions by `Except`, and the external collaborators (the CrewAI
crew, the Pinecone retriever, Firebase, the adjacent-chunk helper) by
function/value parameters describing the collaborator's outcome.
-/

/-- Model of a Python runtime value as it occurs in this code base:
`None`, booleans, ints, floats (modelled exactly as rationals, since the
code only moves float literals around and never does float arithmetic),
strings, lists and string-keyed dicts. -/
inductive PyVal : Type where
  | none : PyVal
  | bool : Bool → PyVal
  | int : Int → PyVal
  | float : Rat → PyVal
  | str : String → PyVal
  | list : List PyVal → PyVal
  | dict : List (String × PyVal) → PyVal

mutual
/-- Structural equality test on `PyVal` (Python `==` as used by this code:
the dicts and lists compared here are homogeneous JSON-like data). -/
def PyVal.beq : PyVal → PyVal → Bool
  | .none, .none => true
  | .bool a, .bool b => a == b
  | .int a, .int b => a == b
  | .float a, .float b => a == b
  | .str a, .str b => a == b
  | .list xs, .list ys => PyVal.beqList xs ys
  | .dict xs, .dict ys => PyVal.beqKVs xs ys
  | _, _ => false

def PyVal.beqList : List PyVal → List PyVal → Bool
  | [], [] => true
  | a :: as, b :: bs => PyVal.beq a b && PyVal.beqList as bs
  | _, _ => false

def PyVal.beqKVs : List (String × PyVal) → List (String × PyVal) → Bool
  | [], [] => true
  | (k, v) :: as, (k2, v2) :: bs => k == k2 && PyVal.beq v v2 && PyVal.beqKVs as bs
  | _, _ => false
end

instance : BEq PyVal := ⟨PyVal.beq⟩

theorem PyVal.eq_of_beq_aux : ∀ (n : Nat),
    (∀ (a b : PyVal), sizeOf a ≤ n → PyVal.beq a b = true → a = b) ∧
    (∀ (xs ys : List PyVal), sizeOf xs ≤ n → PyVal.beqList xs ys = true → xs = ys) ∧
    (∀ (kvs kvs2 : List (String × PyVal)), sizeOf kvs ≤ n →
      PyVal.beqKVs kvs kvs2 = true → kvs = kvs2) := by
  intro n
  induction n with
  | zero =>
    refine ⟨?_, ?_, ?_⟩
    · intro a b hle; cases a <;> simp at hle
    · intro xs ys hle; cases xs <;> simp at hle
    · intro kvs kvs2 hle; cases kvs <;> simp at hle
  | succ n ih =>
    obtain ⟨ihv, ihl, ihk⟩ := ih
    refine ⟨?_, ?_, ?_⟩
    · intro a b hle hbeq
      cases a <;> cases b <;> simp [PyVal.beq] at hbeq ⊢ <;> try exact hbeq
      · exact ihl _ _ (by simp at hle; omega) hbeq
      · exact ihk _ _ (by simp at hle; omega) hbeq
    · intro xs ys hle hbeq
      cases xs <;> cases ys <;> simp [PyVal.beqList] at hbeq ⊢
      obtain ⟨h1, h2⟩ := hbeq
      exact ⟨ihv _ _ (by simp at hle; omega) h1, ihl _ _ (by simp at hle; omega) h2⟩
    · intro kvs kvs2 hle hbeq
      cases kvs with
      | nil => cases kvs2 <;> simp [PyVal.beqKVs] at hbeq ⊢
      | cons kv tl =>
        cases kvs2 with
        | nil => simp [PyVal.beqKVs] at hbeq
        | cons kv2 tl2 =>
          obtain ⟨k, v⟩ := kv
          obtain ⟨k2, v2⟩ := kv2
          simp [PyVal.beqKVs] at hbeq ⊢
          obtain ⟨⟨h1, h2⟩, h3⟩ := hbeq
          exact ⟨⟨h1, ihv _ _ (by simp at hle; omega) h2⟩,
                 ihk _ _ (by simp at hle; omega) h3⟩

theorem PyVal.beq_refl_aux : ∀ (n : Nat),
    (∀ (a : PyVal), sizeOf a ≤ n → PyVal.beq a a = true) ∧
    (∀ (xs : List PyVal), sizeOf xs ≤ n → PyVal.beqList xs xs = true) ∧
    (∀ (kvs : List (String × PyVal)), sizeOf kvs ≤ n → PyVal.beqKVs kvs kvs = true) := by
  intro n
  induction n with
  | zero =>
    refine ⟨?_, ?_, ?_⟩
    · intro a hle; cases a <;> simp at hle
    · intro xs hle; cases xs <;> simp at hle
    · intro kvs hle; cases kvs <;> simp at hle
  | succ n ih =>
    obtain ⟨ihv, ihl, ihk⟩ := ih
    refine ⟨?_, ?_, ?_⟩
    · intro a hle
      cases a <;> simp [PyVal.beq]
      · exact ihl _ (by simp at hle; omega)
      · exact ihk _ (by simp at hle; omega)
    · intro xs hle
      cases xs with
      | nil => simp [PyVal.beqList]
      | cons hd tl =>
        simp [PyVal.beqList]
        exact ⟨ihv _ (by simp at hle; omega), ihl _ (by simp at hle; omega)⟩
    · intro kvs hle
      cases kvs with
      | nil => simp [PyVal.beqKVs]
      | cons kv tl =>
        obtain ⟨k, v⟩ := kv
        simp [PyVal.beqKVs]
        exact ⟨ihv _ (by simp at hle; omega), ihk _ (by simp at hle; omega)⟩

theorem PyVal.eq_of_beq {a b : PyVal} (h : PyVal.beq a b = true) : a = b :=
  (PyVal.eq_of_beq_aux (sizeOf a)).1 a b (Nat.le_refl _) h

theorem PyVal.beq_refl (a : PyVal) : PyVal.beq a a = true :=
  (PyVal.beq_refl_aux (sizeOf a)).1 a (Nat.le_refl _)

instance : DecidableEq PyVal := fun a b =>
  if h : PyVal.beq a b = true then isTrue (PyVal.eq_of_beq h)
  else isFalse (fun he => h (he ▸ PyVal.beq_refl a))

namespace PyVal

/-- Python truthiness (`bool(x)`). -/
def truthy : PyVal → Bool
  | .none => false
  | .bool b => b
  | .int n => n != 0
  | .float q => q != 0
  | .str s => s != ""
  | .list xs => !xs.isEmpty
  | .dict kvs => !kvs.isEmpty

/-- Python `isinstance(x, str)`. -/
def isStr : PyVal → Bool
  | .str _ => true
  | _ => false

/-- Python `isinstance(x, list)`. -/
def isList : PyVal → Bool
  | .list _ => true
  | _ => false

/-- Python `isinstance(x, dict)`. -/
def isDict : PyVal → Bool
  | .dict _ => true
  | _ => false

/-- Python `isinstance(x, (int, float))` — `bool` is a subclass of `int`. -/
def isNum : PyVal → Bool
  | .int _ => true
  | .float _ => true
  | .bool _ => true
  | _ => false

end PyVal

/-- Python `d.get(k, default)` on a dict (first binding wins; the JSON
parser below keeps keys unique). -/
def dGet (kvs : List (String × PyVal)) (k : String) (dflt : PyVal) : PyVal :=
  match kvs.find? (fun kv => kv.1 = k) with
  | Option.none => dflt
  | some kv => kv.2

/-- Python `k in d` on a dict. -/
def dHas (kvs : List (String × PyVal)) (k : String) : Bool :=
  (kvs.find? (fun kv => kv.1 = k)).isSome

/-- Key lookup on the result dicts produced by the embedded functions
(`d.get(k)` with no default, as an `Option`). -/
def dLookup (kvs : List (String × PyVal)) (k : String) : Option PyVal :=
  (kvs.find? (fun kv => kv.1 = k)).map (·.2)

/-- The ASCII single-quote character, used by Python `repr` of strings. -/
def pyQuote : String := String.mk [Char.ofNat 39]

/-- Python whitespace for `str.strip()`. -/
def pyIsSpace (c : Char) : Bool :=
  c = ' ' || c = '\t' || c = '\n' || c = '\r' || c = Char.ofNat 11 || c = Char.ofNat 12

/-- Python `s.strip()`. -/
def pyStrip (s : String) : String :=
  String.mk ((s.data.dropWhile pyIsSpace).reverse.dropWhile pyIsSpace |>.reverse)

mutual
/-- Python `repr` of a value (only the cases exercised by the embedded
code paths need to match CPython exactly: strings, ints, lists thereof). -/
def pyRepr : PyVal → String
  | .none => "None"
  | .bool b => if b then "True" else "False"
  | .int n => toString n
  | .float q => toString q.num ++ "/" ++ toString q.den
  | .str s => pyQuote ++ s ++ pyQuote
  | .list xs => "[" ++ pyReprList xs ++ "]"
  | .dict kvs => "\x7b" ++ pyReprKVs kvs ++ "\x7d"

def pyReprList : List PyVal → String
  | [] => ""
  | [v] => pyRepr v
  | v :: rest => pyRepr v ++ ", " ++ pyReprList rest

def pyReprKVs : List (String × PyVal) → String
  | [] => ""
  | [kv] => pyQuote ++ kv.1 ++ pyQuote ++ ": " ++ pyRepr kv.2
  | kv :: rest => pyQuote ++ kv.1 ++ pyQuote ++ ": " ++ pyRepr kv.2 ++ ", " ++ pyReprKVs rest
end

/-- Python `str()` of a value. -/
def pyStr : PyVal → String
  | .str s => s
  | v => pyRepr v

/-- Python `int(x)` where it succeeds, `Option.none` where it raises:
ints pass through, bools become 0/1, floats truncate toward zero, strings
must be (possibly space-padded, possibly signed) digit strings. -/
def pyToInt : PyVal → Option Int
  | .int n => some n
  | .bool b => some (if b then 1 else 0)
  | .float q => some (if q < 0 then -((-q).floor) else q.floor)
  | .str s =>
    let t := pyStrip s
    let core := if t.startsWith "-" || t.startsWith "+" then t.drop 1 else t
    if core.length > 0 && core.data.all Char.isDigit then
      let mag : Int := core.data.foldl (fun acc c => acc * 10 + (c.toNat - 48 : Int)) 0
      some (if t.startsWith "-" then -mag else mag)
    else Option.none
  | _ => Option.none

/-- Python set membership insert on an insertion-ordered duplicate-free
list (`s.add(x)`). -/
def setAdd (xs : List PyVal) (x : PyVal) : List PyVal :=
  if xs.contains x then xs else xs ++ [x]

/-- Insert for an `Int` set kept as an insertion-ordered list. -/
def intSetAdd (xs : List Int) (x : Int) : List Int :=
  if xs.contains x then xs else xs ++ [x]

/-- Add every element of `ys` to the int set `xs`. -/
def intSetAddAll (xs : List Int) (ys : List Int) : List Int :=
  ys.foldl intSetAdd xs

/-! ### A model of Python `json.loads`

A fuel-bounded recursive-descent parser for the JSON grammar accepted by
Python's `json` module (objects, arrays, strings with escapes, numbers,
`true`/`false`/`null`), returning the parsed `PyVal` or the decoder's
error kind.  Numbers parse to `PyVal.int` when they are plain integers and
to exact rationals (`PyVal.float`) otherwise, mirroring Python's
int/float distinction. -/

/-- The `{` character (written via its code point). -/
def lbrace : Char := Char.ofNat 123

/-- The `}` character (written via its code point). -/
def rbrace : Char := Char.ofNat 125

def jsonIsWs (c : Char) : Bool :=
  c = ' ' || c = '\t' || c = '\n' || c = '\r'

def skipWs : List Char → List Char
  | [] => []
  | c :: cs => if jsonIsWs c then skipWs cs else c :: cs

def hexVal (c : Char) : Option Nat :=
  if '0' ≤ c && c ≤ '9' then some (c.toNat - 48)
  else if 'a' ≤ c && c ≤ 'f' then some (c.toNat - 87)
  else if 'A' ≤ c && c ≤ 'F' then some (c.toNat - 55)
  else Option.none

/-- Body of a JSON string after its opening quote; `acc` collects the
decoded characters in reverse. -/
def parseJStrAux : List Char → List Char → Except String (String × List Char)
  | [], _ => .error "Unterminated string"
  | c :: cs, acc =>
    if c = '"' then .ok (String.mk acc.reverse, cs)
    else if c = '\\' then
      match cs with
      | [] => .error "Unterminated string"
      | e :: cs2 =>
        if e = '"' then parseJStrAux cs2 ('"' :: acc)
        else if e = '\\' then parseJStrAux cs2 ('\\' :: acc)
        else if e = '/' then parseJStrAux cs2 ('/' :: acc)
        else if e = 'n' then parseJStrAux cs2 ('\n' :: acc)
        else if e = 't' then parseJStrAux cs2 ('\t' :: acc)
        else if e = 'r' then parseJStrAux cs2 ('\r' :: acc)
        else if e = 'b' then parseJStrAux cs2 (Char.ofNat 8 :: acc)
        else if e = 'f' then parseJStrAux cs2 (Char.ofNat 12 :: acc)
        else if e = 'u' then
          match cs2 with
          | h1 :: h2 :: h3 :: h4 :: cs3 =>
            match hexVal h1, hexVal h2, hexVal h3, hexVal h4 with
            | some a, some b, some c2, some d =>
              parseJStrAux cs3 (Char.ofNat (((a * 16 + b) * 16 + c2) * 16 + d) :: acc)
            | _, _, _, _ => .error "Invalid unicode escape"
          | _ => .error "Invalid unicode escape"
        else .error "Invalid escape"
    else parseJStrAux cs (c :: acc)

def digitsToNat (ds : List Char) : Nat :=
  ds.foldl (fun a c => a * 10 + (c.toNat - 48)) 0

/-- JSON number, following the regular expression Python's decoder uses:
`-?(0|[1-9][0-9]*)([.][0-9]+)?([eE][+-]?[0-9]+)?` — the longest prefix
matching the expression is consumed, anything further is left in place. -/
def parseJNum (cs : List Char) : Except String (PyVal × List Char) :=
  let (neg, cs1) := match cs with
    | '-' :: t => (true, t)
    | _ => (false, cs)
  match cs1.head? with
  | Option.none => .error "Expecting value"
  | some c =>
    if !c.isDigit then .error "Expecting value"
    else
      let p := cs1.span Char.isDigit
      let (ds, rest) :=
        if p.1.head? = some '0' && p.1.length > 1 then
          (['0'], p.1.tail ++ p.2)
        else p
      let fracP : List Char × List Char :=
        match rest with
        | '.' :: r2 =>
          let q := r2.span Char.isDigit
          if q.1.isEmpty then ([], rest) else (q.1, q.2)
        | _ => ([], rest)
      let fs := fracP.1
      let rest2 := fracP.2
      let expP : Option Int × List Char :=
        match rest2 with
        | e :: r3 =>
          if e = 'e' || e = 'E' then
            let (esign, r4) := match r3 with
              | '-' :: t => ((-1 : Int), t)
              | '+' :: t => ((1 : Int), t)
              | _ => ((1 : Int), r3)
            let q := r4.span Char.isDigit
            if q.1.isEmpty then (Option.none, rest2)
            else (some (esign * (digitsToNat q.1 : Int)), q.2)
          else (Option.none, rest2)
        | _ => (Option.none, rest2)
      let ev := expP.1
      let rest3 := expP.2
      if fs.isEmpty && ev.isNone then
        let m : Int := digitsToNat ds
        .ok (.int (if neg then -m else m), rest3)
      else
        let m : Rat := (digitsToNat (ds ++ fs) : Int)
        let q : Rat := m / ((10 : Rat) ^ fs.length) * ((10 : Rat) ^ (ev.getD 0))
        .ok (.float (if neg then -q else q), rest3)

/-- Python `d[k] = v` on a dict: replace in place when the key exists,
append otherwise (how `json.loads` accumulates duplicate object keys). -/
def dInsert (kvs : List (String × PyVal)) (k : String) (v : PyVal) :
    List (String × PyVal) :=
  if dHas kvs k then kvs.map (fun kv => if kv.1 = k then (k, v) else kv)
  else kvs ++ [(k, v)]

/-- Literal stripper for `true`/`false`/`null`. -/
def dropLit : List Char → List Char → Option (List Char)
  | [], cs => some cs
  | l :: ls, c :: cs => if c = l then dropLit ls cs else Option.none
  | _ :: _, [] => Option.none

mutual
def parseJVal : Nat → List Char → Except String (PyVal × List Char)
  | 0, _ => .error "Too deeply nested"
  | fuel + 1, cs =>
    match skipWs cs with
    | [] => .error "Expecting value"
    | c :: rest =>
      if c = '"' then
        match parseJStrAux rest [] with
        | .error e => .error e
        | .ok (s, r) => .ok (.str s, r)
      else if c = '[' then
        let afterB := skipWs rest
        match afterB.head? with
        | some c2 =>
          if c2 = ']' then .ok (.list [], afterB.tail)
          else parseJArrItems fuel afterB []
        | Option.none => .error "Expecting value"
      else if c = lbrace then
        let afterB := skipWs rest
        match afterB.head? with
        | some c2 =>
          if c2 = rbrace then .ok (.dict [], afterB.tail)
          else parseJObjItems fuel afterB []
        | Option.none => .error "Expecting property name"
      else if c = 't' then
        match dropLit ['r', 'u', 'e'] rest with
        | some r => .ok (.bool true, r)
        | Option.none => .error "Expecting value"
      else if c = 'f' then
        match dropLit ['a', 'l', 's', 'e'] rest with
        | some r => .ok (.bool false, r)
        | Option.none => .error "Expecting value"
      else if c = 'n' then
        match dropLit ['u', 'l', 'l'] rest with
        | some r => .ok (.none, r)
        | Option.none => .error "Expecting value"
      else if c = '-' || c.isDigit then parseJNum (c :: rest)
      else .error "Expecting value"

def parseJArrItems (fuel : Nat) (cs : List Char) (acc : List PyVal) :
    Except String (PyVal × List Char) :=
  match fuel with
  | 0 => .error "Too deeply nested"
  | fuel + 1 =>
    match parseJVal fuel cs with
    | .error e => .error e
    | .ok (v, rest) =>
      match skipWs rest with
      | c :: r2 =>
        if c = ',' then parseJArrItems fuel r2 (v :: acc)
        else if c = ']' then .ok (.list (v :: acc).reverse, r2)
        else .error "Expecting comma delimiter"
      | [] => .error "Expecting comma delimiter"

def parseJObjItems (fuel : Nat) (cs : List Char) (acc : List (String × PyVal)) :
    Except String (PyVal × List Char) :=
  match fuel with
  | 0 => .error "Too deeply nested"
  | fuel + 1 =>
    match skipWs cs with
    | '"' :: r =>
      match parseJStrAux r [] with
      | .error e => .error e
      | .ok (k, r2) =>
        match skipWs r2 with
        | ':' :: r3 =>
          match parseJVal fuel r3 with
          | .error e => .error e
          | .ok (v, r4) =>
            let acc2 := dInsert acc k v
            match skipWs r4 with
            | c :: r5 =>
              if c = ',' then parseJObjItems fuel r5 acc2
              else if c = rbrace then .ok (.dict acc2, r5)
              else .error "Expecting comma delimiter"
            | [] => .error "Expecting comma delimiter"
        | _ => .error "Expecting colon delimiter"
    | _ => .error "Expecting property name enclosed in double quotes"
end

/-- Model of Python `json.loads`: parse one JSON value and require only
whitespace after it. -/
def jsonLoads (s : String) : Except String PyVal :=
  match parseJVal (2 * s.length + 4) s.data with
  | .error e => .error e
  | .ok (v, rest) =>
    match skipWs rest with
    | [] => .ok v
    | _ => .error "Extra data"

/-! ### The page-marker regular expressions of `answer_question`

The source searches the raw agent output with
`re.search(r'\\[SYSTEM_INFO\\] FOUND_PAGES: (\\[.*?\\])', result_str)` and,
failing that, `re.search(r'FOUND_PAGES: (\\[.*?\\])', result_str)`.
Because both raw strings double the backslashes, the compiled patterns are
literal-backslash, character-class `[SYSTEM_INFO\]`, the literal
`" FOUND_PAGES: "` (resp. `"FOUND_PAGES: "`), literal backslash, character
class `[.*?\]` — i.e. fixed-length patterns whose capture group is always
a backslash followed by one of `.`,`*`,`?`,`\`.  They are modelled here
position by position, exactly as the `re` engine interprets them. -/

/-- The character class `[SYSTEM_INFO\]` of the first compiled pattern. -/
def class1Chars : List Char := "SYSTEM_INFO\\".data

/-- The character class `[.*?\]` of the capture group. -/
def class2Chars : List Char := ".*?\\".data

/-- The literal run `" FOUND_PAGES: "` of the first compiled pattern. -/
def pagesLit1 : List Char := " FOUND_PAGES: ".data

/-- The literal run `"FOUND_PAGES: "` of the second compiled pattern. -/
def pagesLit2 : List Char := "FOUND_PAGES: ".data

/-- Try the first compiled pattern at the head of `cs`; on success return
the capture group. -/
def matchPat1At : List Char → Option String
  | '\\' :: c1 :: rest =>
    if class1Chars.contains c1 then
      match dropLit pagesLit1 rest with
      | some ('\\' :: c2 :: _) =>
        if class2Chars.contains c2 then some (String.mk ['\\', c2]) else Option.none
      | _ => Option.none
    else Option.none
  | _ => Option.none

/-- Model of `re.search` with the first compiled pattern: leftmost match. -/
def searchPat1 : List Char → Option String
  | [] => Option.none
  | c :: cs =>
    match matchPat1At (c :: cs) with
    | some g => some g
    | Option.none => searchPat1 cs

/-- Try the second compiled pattern at the head of `cs`. -/
def matchPat2At (cs : List Char) : Option String :=
  match dropLit pagesLit2 cs with
  | some ('\\' :: c2 :: _) =>
    if class2Chars.contains c2 then some (String.mk ['\\', c2]) else Option.none
  | _ => Option.none

/-- Model of `re.search` with the second compiled pattern: leftmost match. -/
def searchPat2 : List Char → Option String
  | [] => Option.none
  | c :: cs =>
    match matchPat2At (c :: cs) with
    | some g => some g
    | Option.none => searchPat2 cs

/-- Lines 689–706 of `agent_processor.py`: `pages = []`; search with the
first pattern, on a match `json.loads` the capture (empty list on any
exception); otherwise search with the alternative pattern likewise. -/
def extractPages (result_str : String) : PyVal :=
  match searchPat1 result_str.data with
  | some g =>
    match jsonLoads g with
    | .ok v => v
    | .error _ => .list []
  | Option.none =>
    match searchPat2 result_str.data with
    | some g =>
      match jsonLoads g with
      | .ok v => v
      | .error _ => .list []
    | Option.none => .list []

/-- Modelled from the spec: §4.5 step 4 says pages are "independently
recovered by scanning the raw text for the `FOUND_PAGES: [...]` marker
(emitted by the Context Assembler) via pattern search, then parsed as an
array" — i.e. the singly-escaped pattern
`\[SYSTEM_INFO\] FOUND_PAGES: (\[.*?\])`.  The lazy group captures a `[`,
the shortest run of non-newline characters, and the first following `]`. -/
def specTakeThroughRB : List Char → Option (List Char)
  | [] => Option.none
  | c :: cs =>
    if c = ']' then some [c]
    else if c = '\n' then Option.none
    else (specTakeThroughRB cs).map (c :: ·)

/-- Characters of the lazy group up to and including the first `]` are
delivered by `specTakeThroughRB`, which fails at a newline or the end of
input (`.` does not match newlines). -/
def specMatchPagesAt (cs : List Char) : Option String :=
  match dropLit "[SYSTEM_INFO] FOUND_PAGES: ".data cs with
  | some ('[' :: r) =>
    match specTakeThroughRB r with
    | some inner => some (String.mk ('[' :: inner))
    | Option.none => Option.none
  | _ => Option.none

/-- Modelled from the spec: leftmost occurrence of the marker scan the
spec describes (see `specMatchPagesAt`). -/
def specFoundPagesScan : List Char → Option String
  | [] => Option.none
  | c :: cs =>
    match specMatchPagesAt (c :: cs) with
    | some g => some g
    | Option.none => specFoundPagesScan cs

/-! ### `AgentProcessor.answer_question` (`agent_processor.py` 528–768)

The CrewAI collaborators are parameters: `agentSetup` is the outcome of
`setup_agent` (line 564), `crew` the outcome of `crew.kickoff()`
stringified (line 669–670), either one `.error (message, exceptionType)`
when the collaborator raises.  The returned `Bool` records whether the
external agent machinery was reached (`False` when validation returned
first). -/

/-- Lines 542–551: the validity test `not x or not isinstance(x, str) or
not x.strip()` applied to the question and the namespace. -/
def pyInvalidStr (v : PyVal) : Bool :=
  !PyVal.truthy v || !PyVal.isStr v ||
    (match v with
     | .str s => pyStrip s == ""
     | _ => true)

/-- Lines 543–551: the early return for an invalid question. -/
def invalidQuestionDict : List (String × PyVal) :=
  [("answer", .str "Ungültige Frage"),
   ("document_ids", .list []),
   ("sources", .list []),
   ("confidence_score", .float 0),
   ("context_used", .bool false),
   ("additional_info", .str "Leere oder ungültige Frage"),
   ("pages", .list [])]

/-- Lines 553–562: the early return for an invalid namespace. -/
def invalidNamespaceDict : List (String × PyVal) :=
  [("answer", .str "Ungültiger Namespace"),
   ("document_ids", .list []),
   ("sources", .list []),
   ("confidence_score", .float 0),
   ("context_used", .bool false),
   ("additional_info", .str "Leerer oder ungültiger Namespace"),
   ("pages", .list [])]

/-- Lines 757–768: the outermost `except Exception` handler. -/
def outerErrorDict (msg typeName : String) : List (String × PyVal) :=
  [("answer", .str ("Fehler beim Beantworten der Frage: " ++ msg)),
   ("document_ids", .list []),
   ("sources", .list []),
   ("confidence_score", .float 0),
   ("context_used", .bool false),
   ("additional_info", .str ("Fehler aufgetreten: " ++ typeName)),
   ("pages", .list [])]

/-- Lines 567–571: `has_history = bool(chat_history and len(chat_history)
> 0)` followed by `chat_history[-6:]` — `len` of an unsized truthy value
and slicing a dict raise `TypeError` (into the outermost handler). -/
def hasHistoryE : PyVal → Except (String × String) Bool
  | .none => .ok false
  | .bool b =>
    if b then .error ("object of type bool has no len()", "TypeError") else .ok false
  | .int n =>
    if n = 0 then .ok false else .error ("object of type int has no len()", "TypeError")
  | .float q =>
    if q = 0 then .ok false else .error ("object of type float has no len()", "TypeError")
  | .str s => .ok (s ≠ "")
  | .list xs => .ok (!xs.isEmpty)
  | .dict kvs =>
    if kvs.isEmpty then .ok false else .error ("unhashable type: slice", "TypeError")

/-- Python `s.find(c)`: index of the first occurrence, `-1`
when absent. -/
def pyFind (c : Char) : List Char → Int
  | [] => -1
  | a :: t =>
    if a = c then 0
    else if pyFind c t = -1 then -1 else pyFind c t + 1

/-- Python `s.rfind(c)`: index of the last occurrence, `-1`
when absent. -/
def pyRFind (c : Char) : List Char → Int
  | [] => -1
  | a :: t =>
    if pyRFind c t = -1 then (if a = c then 0 else -1)
    else pyRFind c t + 1

/-- Python slicing `s[a:b]` for nonnegative bounds. -/
def pySlice (cs : List Char) (a b : Int) : List Char :=
  (cs.drop a.toNat).take (b.toNat - a.toNat)

/-- Lines 724–733: the fallback when no `{` was found. -/
def noJsonFallbackDict (hh : Bool) (result_str : String) : List (String × PyVal) :=
  [("answer", .str result_str),
   ("document_ids", .list []),
   ("sources", .list []),
   ("confidence_score", .float (7 / 10)),
   ("context_used", .bool hh),
   ("additional_info", .str "Antwort konnte nicht als strukturiertes JSON geparst werden - keine JSON-Struktur gefunden"),
   ("pages", .list [])]

/-- Lines 735–745: the fallback when `json.loads` failed on the located
substring. -/
def jsonFailFallbackDict (hh : Bool) (result_str err : String) : List (String × PyVal) :=
  [("answer", .str result_str),
   ("document_ids", .list []),
   ("sources", .list []),
   ("confidence_score", .float (7 / 10)),
   ("context_used", .bool hh),
   ("additional_info", .str ("JSON-Parsing fehlgeschlagen: " ++ err)),
   ("pages", .list [])]

/-- Lines 746–755: the fallback for any other exception while parsing —
reached when the parsed JSON value is not a dictionary (line 687). -/
def unexpectedFallbackDict (hh : Bool) (result_str err : String) : List (String × PyVal) :=
  [("answer", .str result_str),
   ("document_ids", .list []),
   ("sources", .list []),
   ("confidence_score", .float (7 / 10)),
   ("context_used", .bool hh),
   ("additional_info", .str ("Unerwarteter Parsing-Fehler: " ++ err)),
   ("pages", .list [])]

/-- Lines 707–716: the structured response assembled from a successfully
parsed dictionary, with the defensive per-field coercions. -/
def structuredFromParsed (hh : Bool) (result_str : String)
    (kvs : List (String × PyVal)) : List (String × PyVal) :=
  [("answer", .str (pyStr (dGet kvs "answer" (.str result_str)))),
   ("document_ids",
     match dLookup kvs "document_ids" with
     | some (.list l) => .list l
     | _ => .list []),
   ("sources",
     match dLookup kvs "sources" with
     | some (.list l) => .list l
     | _ => .list []),
   ("confidence_score",
     match dLookup kvs "confidence_score" with
     | some (.int n) => .float (n : Rat)
     | some (.float q) => .float q
     | some (.bool b) => .float (if b then 1 else 0)
     | _ => .float (4 / 5)),
   ("context_used", .bool (PyVal.truthy (dGet kvs "context_used" (.bool hh)))),
   ("additional_info", dGet kvs "additional_info" .none),
   ("pages", extractPages result_str)]

/-- Lines 676–681: the substring `result_str[json_start:json_end]`
located between the first `{` and the last `}`. -/
def locatedJsonStr (s : String) : String :=
  String.mk (pySlice s.data (pyFind lbrace s.data) (pyRFind rbrace s.data + 1))

/-- Lines 672–755: the structured-response extraction from the raw crew
output (`result_str`): locate the first `{` and last `}`, `json.loads`
the slice, validate the field types, extract pages, with the three
fallbacks. -/
def answerParse (hh : Bool) (result_str : String) : List (String × PyVal) :=
  let json_start := pyFind lbrace result_str.data
  let json_end := pyRFind rbrace result_str.data + 1
  if json_start != -1 && json_end != -1 then
    match jsonLoads (locatedJsonStr result_str) with
    | .error e => jsonFailFallbackDict hh result_str e
    | .ok (.dict kvs) => structuredFromParsed hh result_str kvs
    | .ok _ => unexpectedFallbackDict hh result_str "Parsed response is not a dictionary"
  else noJsonFallbackDict hh result_str

/-! ### `pdf_search_tool` (`agent_processor.py` 251–457)

A retrieved fragment is a LangChain document object: the `metadata` and
`page_content` attributes may be absent (duck typing is checked with
`hasattr`) and may hold values of any type.  The compression retriever and
the adjacent-chunk helper are parameters describing the collaborator
outcome. -/

/-- A retrieved fragment as `pdf_search_tool` sees it. -/
structure Fragment where
  hasMetadata : Bool := true
  metadata : PyVal := .dict []
  hasPageContent : Bool := true
  page_content : PyVal := .str ""

/-- The outcome of `compression_retriever.invoke(query)` (lines 273–285):
it can raise, return `None`, return a non-list, or return fragments. -/
inductive RetrieverResult : Type where
  | raised (msg : String)
  | isNone
  | nonList (typeName : String)
  | docs (l : List Fragment)

/-- Python `for p in x` — iterable values and their element sequence; `none`
models the `TypeError` of iterating a non-iterable. -/
def pyIterate : PyVal → Option (List PyVal)
  | .list xs => some xs
  | .str s => some (s.data.map (fun c => .str (String.mk [c])))
  | .dict kvs => some (kvs.map (fun kv => PyVal.str kv.1))
  | _ => Option.none

/-- Python `x[0]` — `none` models `IndexError`/`KeyError`/`TypeError`. -/
def pySub0 : PyVal → Option PyVal
  | .list (x :: _) => some x
  | .str s =>
    match s.data with
    | c :: _ => some (.str (String.mk [c]))
    | [] => Option.none
  | _ => Option.none

/-- Python hashability (`set.add`/dict keys reject lists and dicts). -/
def pyHashable : PyVal → Bool
  | .list _ => false
  | .dict _ => false
  | _ => true

/-- Lines 296–304 (the document-ID filter loop): the owning document of a
fragment, with the `'unknown'` default of line 302. -/
def filterDocId (kvs : List (String × PyVal)) : PyVal :=
  dGet kvs "document_id" (dGet kvs "pdf_id" (.str "unknown"))

/-- Line 294–308: whether the filter loop keeps a fragment. -/
def keepInFilter (target : List String) (f : Fragment) : Bool :=
  f.hasMetadata && PyVal.isDict f.metadata &&
    (match f.metadata with
     | .dict kvs =>
       match filterDocId kvs with
       | .str s => target.contains s
       | _ => false
     | _ => false)

/-- Lines 334 / 330: the owning document ID in the extraction loop, with
the indexed `unknown_{i}` default. -/
def docIdOfKVs (i : Nat) (kvs : List (String × PyVal)) : PyVal :=
  dGet kvs "document_id" (dGet kvs "pdf_id" (.str ("unknown_" ++ toString i)))

/-- Lines 355–358: `content = getattr(doc, 'page_content', '')` coerced
to `str` when needed. -/
def contentStrOf (f : Fragment) : String :=
  if PyVal.isStr f.page_content then
    (match f.page_content with
     | .str s => s
     | _ => "")
  else pyStr f.page_content

/-- The mutable locals of the extraction loop (lines 314–318), plus the
function-local `page_number`, which Python leaves bound across loop
iterations (it is only assigned in the dict-metadata branch, line 338;
`Option.none` models "never yet assigned", whose later use raises
`NameError`). -/
structure LoopState where
  results : List String
  found_doc_ids : List PyVal
  used_pages : List Int
  chunk_counter : Nat
  doc_index_map : List (PyVal × Nat)
  lastPageNumber : Option PyVal

def initLoopState : LoopState := ⟨[], [], [], 1, [], Option.none⟩

def mapHas (m : List (PyVal × Nat)) (k : PyVal) : Bool :=
  m.any (fun kv => kv.1 = k)

def mapGetD (m : List (PyVal × Nat)) (k : PyVal) (d : Nat) : Nat :=
  ((m.find? (fun kv => kv.1 = k)).map (·.2)).getD d

/-- The `--- DOK{n} CHUNK {c}b (HAUPTTREFFER){page} START/END ---` block
of lines 405–407 / 423 / 428. -/
def mainHitBlock (doc_index : Nat) (counter : Nat) (page_info contentS : String) :
    String :=
  "--- DOK" ++ toString (doc_index + 1) ++ " CHUNK " ++ toString counter ++
    "b (HAUPTTREFFER)" ++ page_info ++ " START ---\n" ++ contentS ++
    "\n--- DOK" ++ toString (doc_index + 1) ++ " CHUNK " ++ toString counter ++
    "b (HAUPTTREFFER)" ++ page_info ++ " END ---"

/-- The labelled previous/next sub-block of lines 399–401 / 411–413. -/
def adjacentBlock (doc_index : Nat) (counter : Nat) (tag label contentS : String) :
    String :=
  "--- DOK" ++ toString (doc_index + 1) ++ " CHUNK " ++ toString counter ++
    tag ++ " (" ++ label ++ ") START ---\n" ++ contentS ++
    "\n--- DOK" ++ toString (doc_index + 1) ++ " CHUNK " ++ toString counter ++
    tag ++ " (" ++ label ++ ") END ---"

/-- Lines 341–346: add every int-convertible element of the iterated
`pages` value to `used_pages`. -/
def pagesCollectUpdate (st : LoopState) (elems : List PyVal) : LoopState :=
  let up := elems.foldl
    (fun up p =>
      match pyToInt p with
      | some n => intSetAdd up n
      | Option.none => up) st.used_pages
  { st with used_pages := up }

/-- Lines 349–353: add `int(page_number)` when `page_number` is truthy
(the `except: pass` keeps the state on a failing conversion). -/
def pageNumUpdate (st : LoopState) (pageNumV : PyVal) : LoopState :=
  if PyVal.truthy pageNumV then
    match pyToInt pageNumV with
    | some n => { st with used_pages := intSetAdd st.used_pages n }
    | Option.none => st
  else st

/-- Lines 354–431 (dict-metadata branch): the content check,
`found_doc_ids`/`doc_index_map` bookkeeping, `current_page`/`pages_str`
computation and the entry formatting, starting from the state after the
page collection. -/
def fragContentStage (adj : PyVal → PyVal → Except String PyVal)
    (st : LoopState) (f : Fragment)
    (doc_id chunk_id pagesV pageNumV : PyVal) : LoopState :=
  let contentS := contentStrOf f
  if pyStrip contentS == "" then st
  else if !pyHashable doc_id then st
  else
    let st := { st with found_doc_ids := setAdd st.found_doc_ids doc_id }
    let st :=
      if mapHas st.doc_index_map doc_id then st
      else { st with doc_index_map := st.doc_index_map ++ [(doc_id, st.doc_index_map.length)] }
    let doc_index := mapGetD st.doc_index_map doc_id 0
    let currentPageE : Option PyVal :=
      if PyVal.truthy pagesV then pySub0 pagesV
      else some (if PyVal.truthy pageNumV then pageNumV else .none)
    match currentPageE with
    | Option.none => st
    | some current_page =>
      let pages_str :=
        if PyVal.truthy pagesV then "[PAGES: " ++ pyStr pagesV ++ "] "
        else if PyVal.truthy pageNumV then "[PAGES: [" ++ pyStr pageNumV ++ "]] "
        else ""
      let page_info :=
        if PyVal.truthy current_page then " SEITE " ++ pyStr current_page else ""
      let isIntChunk :=
        match chunk_id with
        | .int _ => true
        | .bool _ => true
        | _ => false
      let fallbackEntry :=
        "[DOC_ID: " ++ pyStr doc_id ++ "] " ++ pages_str ++ " " ++
          mainHitBlock doc_index st.chunk_counter page_info contentS
      let entry :=
        if isIntChunk then
          match adj doc_id chunk_id with
          | .ok (.dict akvs) =>
            let prevV := dGet akvs "previous" .none
            let nextV := dGet akvs "next" .none
            if (PyVal.truthy prevV && !PyVal.isStr prevV) ||
               (PyVal.truthy nextV && !PyVal.isStr nextV) then fallbackEntry
            else
              let blocks :=
                (if PyVal.truthy prevV then
                  [adjacentBlock doc_index st.chunk_counter "a" "VORHERIGER" (pyStr prevV)]
                 else []) ++
                [mainHitBlock doc_index st.chunk_counter page_info contentS] ++
                (if PyVal.truthy nextV then
                  [adjacentBlock doc_index st.chunk_counter "c" "NÄCHSTER" (pyStr nextV)]
                 else [])
              "[DOC_ID: " ++ pyStr doc_id ++ "] " ++ pages_str ++ " " ++
                String.intercalate "\n" blocks
          | _ => fallbackEntry
        else fallbackEntry
      { st with results := st.results ++ [entry],
                chunk_counter := st.chunk_counter + 1 }

/-- One iteration of the extraction loop, lines 320–434 of
`agent_processor.py`, for the fragment at (enumerate) index `i`.  Raised
exceptions inside the body are caught by the `except ... continue` at
line 433, so they return the state accumulated up to the raising
statement. -/
def processFrag (adj : PyVal → PyVal → Except String PyVal) (i : Nat)
    (st : LoopState) (f : Fragment) : LoopState :=
  if !(f.hasMetadata && f.hasPageContent) then st
  else
    match f.metadata with
    | .dict kvs =>
      let doc_id := docIdOfKVs i kvs
      let chunk_id := dGet kvs "chunk_id" .none
      let pagesV := dGet kvs "pages" .none
      let pageNumV := dGet kvs "page_number" .none
      let st := { st with lastPageNumber := some pageNumV }
      match (if PyVal.truthy pagesV then pyIterate pagesV else some []) with
      | Option.none => st
      | some elems =>
        fragContentStage adj (pageNumUpdate (pagesCollectUpdate st elems) pageNumV) f
          doc_id chunk_id pagesV pageNumV
    | _ =>
      let doc_id := PyVal.str ("unknown_" ++ toString i)
      let contentS := contentStrOf f
      if pyStrip contentS == "" then st
      else
        let st := { st with found_doc_ids := setAdd st.found_doc_ids doc_id }
        let st :=
          if mapHas st.doc_index_map doc_id then st
          else { st with doc_index_map := st.doc_index_map ++ [(doc_id, st.doc_index_map.length)] }
        let doc_index := mapGetD st.doc_index_map doc_id 0
        match st.lastPageNumber with
        | Option.none => st
        | some pn =>
          let current_page := if PyVal.truthy pn then pn else PyVal.none
          let pages_str :=
            if PyVal.truthy pn then "[PAGES: [" ++ pyStr pn ++ "]] " else ""
          let page_info :=
            if PyVal.truthy current_page then " SEITE " ++ pyStr current_page else ""
          let entry :=
            "[DOC_ID: " ++ pyStr doc_id ++ "] " ++ pages_str ++ " " ++
              mainHitBlock doc_index st.chunk_counter page_info contentS
          { st with results := st.results ++ [entry],
                    chunk_counter := st.chunk_counter + 1 }

/-- The whole extraction loop (`for i, doc in enumerate(docs)`). -/
def runSearchLoop (adj : PyVal → PyVal → Except String PyVal)
    (frags : List Fragment) : LoopState :=
  frags.enum.foldl (fun st p => processFrag adj p.1 st p.2) initLoopState

/-- Python rendering of a list of strings (`f"{target_doc_ids}"`). -/
def pyStrList (t : List String) : String :=
  pyRepr (.list (t.map PyVal.str))

/-- The ascending page list put on the `FOUND_PAGES` summary line
(line 444, `sorted(list(used_pages))`). -/
def sortedPages (st : LoopState) : List Int :=
  st.used_pages.insertionSort (· ≤ ·)

/-- Python `document_ids.split(',')` on the character list. -/
def splitComma : List Char → List (List Char)
  | [] => [[]]
  | c :: cs =>
    if c = ',' then [] :: splitComma cs
    else
      match splitComma cs with
      | g :: gs => (c :: g) :: gs
      | [] => [[c]]

/-- Line 269: the parsed comma-separated document-ID allow-list
(`[doc_id.strip() for doc_id in document_ids.split(',') if doc_id.strip()]`). -/
def parsedFilter (document_ids : String) : List String :=
  ((splitComma document_ids.data).map (fun g => pyStrip (String.mk g))).filter
    (fun s => s ≠ "")

/-- Line 311: the distinct "no match within the filter" result. -/
def noFilterMatchMsg (t : List String) : String :=
  "KEINE DOKUMENTE IN GEFILTERTEN IDs: Keine relevanten Dokumente in " ++
    pyStrList t ++ " gefunden."

/-- Line 288: the "no results at all" result. -/
def noDocsMsg : String :=
  "KEINE DOKUMENTE GEFUNDEN: Keine relevanten Dokumente gefunden."

/-- The tool `pdf_search_tool`, lines 251–457: validation, document-ID filter,
extraction loop and summary lines.  `adj` is the adjacent-chunk helper,
`retrieval` the retriever outcome. -/
def pdf_search_tool (adj : PyVal → PyVal → Except String PyVal)
    (query document_ids : String) (retrieval : RetrieverResult) : String :=
  if query == "" || pyStrip query == "" then
    "FEHLER: Suchanfrage ist leer oder ungültig."
  else
    let target_doc_ids : Option (List String) :=
      if document_ids != "" && pyStrip document_ids != "" then
        some (parsedFilter document_ids)
      else Option.none
    match retrieval with
    | .raised e => "FEHLER BEI PINECONE-SUCHE: " ++ e
    | .isNone => "FEHLER: Pinecone-Antwort ist None - möglicherweise Verbindungsproblem."
    | .nonList tn => "FEHLER: Unerwarteter Response-Typ von Pinecone: " ++ tn
    | .docs docs0 =>
      if docs0.isEmpty then noDocsMsg
      else
        let targetActive :=
          match target_doc_ids with
          | some t => !t.isEmpty
          | Option.none => false
        let docs :=
          if targetActive then docs0.filter (keepInFilter (target_doc_ids.getD []))
          else docs0
        if targetActive && docs.isEmpty then
          noFilterMatchMsg (target_doc_ids.getD [])
        else
          let st := runSearchLoop adj docs
          if st.results.isEmpty then
            "KEINE RELEVANTEN INHALTE: Dokumente gefunden, aber keine relevanten Informationen."
          else
            String.intercalate "\n\n" st.results ++
              "\n\n[SYSTEM_INFO] FOUND_DOCUMENT_IDS: " ++ pyStr (.list st.found_doc_ids) ++
              "\n[SYSTEM_INFO] FOUND_PAGES: " ++
                pyStr (.list ((sortedPages st).map PyVal.int)) ++
              (if targetActive then
                "\n[SYSTEM_INFO] FILTERED_BY_DOC_IDS: " ++ pyStrList (target_doc_ids.getD [])
               else "")

/-- The method `AgentProcessor.answer_question`, lines 528–768.  Returns the response
dict and whether the agent machinery (retrieval/model) was reached. -/
def answer_question (question namespaceV chat_history : PyVal)
    (agentSetup : Except (String × String) Unit)
    (crew : Except (String × String) String) :
    List (String × PyVal) × Bool :=
  if pyInvalidStr question then (invalidQuestionDict, false)
  else if pyInvalidStr namespaceV then (invalidNamespaceDict, false)
  else
    match agentSetup with
    | .error (m, t) => (outerErrorDict m t, true)
    | .ok () =>
      match hasHistoryE chat_history with
      | .error (m, t) => (outerErrorDict m t, true)
      | .ok hh =>
        match crew with
        | .error (m, t) => (outerErrorDict m t, true)
        | .ok s => (answerParse hh s, true)

/-! ### `AgentProcessor.delete_document` (`agent_processor.py` 832–860)

The vector-store deletion and the Firebase metadata deletion are
collaborator outcomes, passed as the result dicts their wrappers return. -/

/-- The method `delete_document`: `vector_result` is what
`self._vector_manager.delete_document` returned, `firebase_call` what
`self._firebase.delete_document_metadata` would return (only consulted
when Firebase is available). -/
def delete_document (firebase_available : Bool)
    (vector_result firebase_call : List (String × PyVal))
    (fileID : String) : List (String × PyVal) :=
  let pinecone_deleted := dLookup vector_result "status" == some (.str "success")
  let firebase_result :=
    if firebase_available then firebase_call
    else [("status", PyVal.str "success"), ("message", PyVal.str "Firebase not available")]
  let firebase_deleted :=
    firebase_available && (dLookup firebase_call "status" == some (.str "success"))
  [("status", .str (if pinecone_deleted then "success" else "error")),
   ("message", .str ("Document " ++ fileID ++ " deletion - Pinecone: " ++
     (if pinecone_deleted then "True" else "False") ++ ", Firebase: " ++
     (if firebase_deleted then "True" else "False"))),
   ("vector_result", .dict vector_result),
   ("firebase_result", .dict firebase_result)]

/-! ### `AgentProcessor.get_namespace_summary` (`agent_processor.py` 874–933)

The two Firebase reads are collaborator outcomes (`.error` models the
call raising, which lands in the `except` at line 929). -/

/-- Lines 899–913: the per-document record built for a Firebase entry
that looks like a document. -/
def docEntry (doc_id : String) (kvs : List (String × PyVal)) : List (String × PyVal) :=
  [("id", .str doc_id),
   ("name", dGet kvs "name" (.str doc_id)),
   ("summary", dGet kvs "summary" (.str "Keine Zusammenfassung verfügbar")),
   ("chunk_count", dGet kvs "chunk_count" (dGet kvs "chunks" (.int 0))),
   ("status", dGet kvs "status" (.str "Unknown")),
   ("date", dGet kvs "date" (.str "")),
   ("processing", dGet kvs "processing" (.bool false)),
   ("progress", dGet kvs "progress" (.int 0)),
   ("path", dGet kvs "path" (.str "")),
   ("storageURL", dGet kvs "storageURL" (.str ""))] ++
  (if dHas kvs "additional_info" then [("additional_info", dGet kvs "additional_info" .none)]
   else [])

/-- Lines 894–913: the document-collection loop over
`namespace_data.items()`. -/
def collectDocuments (items : List (String × PyVal)) : List PyVal :=
  items.filterMap (fun kv =>
    match kv.2 with
    | .dict kvs =>
      if dHas kvs "summary" || dHas kvs "status" || dHas kvs "chunk_count" then
        some (.dict (docEntry kv.1 kvs))
      else Option.none
    | _ => Option.none)

/-- Lines 929–933: the `except Exception` return. -/
def errorSummaryDict (msg : String) : List (String × PyVal) :=
  [("status", .str "error"),
   ("message", .str ("Error getting namespace summary: " ++ msg))]

/-- Lines 921–928: the empty-success return. -/
def emptySummaryDict (namespaceS : String) (project_info : PyVal) : List (String × PyVal) :=
  [("status", .str "success"),
   ("namespace", .str namespaceS),
   ("document_count", .int 0),
   ("documents", .list []),
   ("project_info", project_info),
   ("message", .str "No documents found or Firebase not available")]

/-- The method `get_namespace_summary`: `project_info_result` is the outcome of
`self._firebase.get_project_info`, `ns_data_result` of
`self._firebase.get_namespace_data` (`.error` = the call raised; the
message text of the non-mapping `.items()` `AttributeError` is
abbreviated). -/
def get_namespace_summary (namespaceS : String) (firebase_available : Bool)
    (project_info_result ns_data_result : Except String (List (String × PyVal))) :
    List (String × PyVal) :=
  if firebase_available then
    match project_info_result with
    | .error e => errorSummaryDict e
    | .ok pir =>
      let project_info :=
        if dLookup pir "status" == some (.str "success") then dGet pir "data" .none
        else .none
      match ns_data_result with
      | .error e => errorSummaryDict e
      | .ok fr =>
        if dLookup fr "status" == some (.str "success") &&
            PyVal.truthy (dGet fr "data" .none) then
          match dGet fr "data" .none with
          | .dict items =>
            let documents := collectDocuments items
            [("status", .str "success"),
             ("namespace", .str namespaceS),
             ("document_count", .int documents.length),
             ("documents", .list documents),
             ("project_info", project_info)]
          | _ => errorSummaryDict "object has no attribute items"
        else emptySummaryDict namespaceS project_info
  else emptySummaryDict namespaceS .none

/-! ### `send_message` (`main.py` 231–311)

Only the per-namespace chat-history bookkeeping is state; the agent
response (`message_bot_agent`) is a collaborator outcome. -/

/-- The namespace string (the validation guarantees it is a `str`). -/
def pyStrOrEmpty : PyVal → String
  | .str s => s
  | _ => ""

def mkUserMsg (u : PyVal) : PyVal :=
  .dict [("role", .str "user"), ("content", u)]

def mkAsstMsg (a : PyVal) : PyVal :=
  .dict [("role", .str "assistant"), ("content", a)]

/-- Lines 285–290: append the user/assistant pair, then keep only the
last 10 entries (`history[-10:]`) when the buffer exceeds 10. -/
def appendTrim (hist : List PyVal) (u a : PyVal) : List PyVal :=
  let h := hist ++ [mkUserMsg u, mkAsstMsg a]
  if h.length > 10 then h.drop (h.length - 10) else h

/-- Python `chat_state.chat_history.get(ns, [])`. -/
def stateGet (st : List (String × List PyVal)) (ns : String) : List PyVal :=
  match st with
  | [] => []
  | kv :: tl => if kv.1 = ns then kv.2 else stateGet tl ns

/-- Python `chat_state.chat_history[ns] = h` (keys are unique: entries are only
ever created through this update). -/
def stateSet (st : List (String × List PyVal)) (ns : String) (h : List PyVal) :
    List (String × List PyVal) :=
  match st with
  | [] => [(ns, h)]
  | kv :: tl => if kv.1 = ns then (ns, h) :: tl else kv :: stateSet tl ns h

/-- One `send_message` call's effect on the chat-history state: the
validation returns (lines 244–272) and a raising `message_bot_agent`
(caught at line 298) leave the state untouched; a dict response runs the
two appends and the trim (lines 285–290); a *non-dict* response appends
the user entry at line 285 and then raises `AttributeError` in
`response.get` at line 286, so the assistant append and the trim never
run — the buffer keeps the extra untrimmed user entry. -/
def send_message_step (st : List (String × List PyVal))
    (user_input namespaceV : PyVal) (respOutcome : Except String PyVal) :
    List (String × List PyVal) :=
  if pyInvalidStr user_input then st
  else if pyInvalidStr namespaceV then st
  else
    match respOutcome with
    | .error _ => st
    | .ok resp =>
      let ns := pyStrOrEmpty namespaceV
      let hist := stateGet st ns
      match resp with
      | .dict kvs =>
        stateSet st ns (appendTrim hist user_input (dGet kvs "answer" (.str "")))
      | _ => stateSet st ns (hist ++ [mkUserMsg user_input])

/-- A sequence of `send_message` calls starting from the empty
`ChatState`. -/
def run_send_messages (calls : List (PyVal × PyVal × Except String PyVal)) :
    List (String × List PyVal) :=
  calls.foldl (fun st c => send_message_step st c.1 c.2.1 c.2.2) []

/-! ## Theorems -/

instance : LawfulBEq PyVal where
  eq_of_beq := PyVal.eq_of_beq
  rfl := PyVal.beq_refl _

/-- The seven fields of the Structured Answer contract (§3 of the spec). -/
def answerKeys : List String :=
  ["answer", "document_ids", "sources", "confidence_score", "context_used",
   "additional_info", "pages"]

theorem answerParse_keys (hh : Bool) (s : String) :
    (answerParse hh s).map Prod.fst = answerKeys := by
  simp only [answerParse]
  split
  · split <;>
      simp [jsonFailFallbackDict, structuredFromParsed, unexpectedFallbackDict, answerKeys]
  · simp [noJsonFallbackDict, answerKeys]

/-- C1: for every question, namespace and chat-history input and every
agent outcome (including a raising collaborator and every possible raw
result string), `answer_question` returns a record whose keys are exactly
the seven Structured Answer fields; totality of the embedding reflects
that no exception escapes the boundary (every internal raise is routed
into a returning branch). -/
theorem C1_seven_fields (question namespaceV chat_history : PyVal)
    (agentSetup : Except (String × String) Unit)
    (crew : Except (String × String) String) :
    ((answer_question question namespaceV chat_history agentSetup crew).1).map Prod.fst
      = answerKeys := by
  unfold answer_question
  split
  · rfl
  · split
    · rfl
    · split
      · rfl
      · split
        · rfl
        · split
          · rfl
          · exact answerParse_keys _ _

/-- C8: `delete_document` reports the vector-store and metadata-store
outcomes independently (both collaborator result dicts appear verbatim in
the result), its overall status is `"success"` iff the vector-store
deletion succeeded, and the Firebase outcome never influences the overall
status. -/
theorem C8_delete_document_status (firebase_available : Bool)
    (vector_result firebase_call : List (String × PyVal)) (fileID : String) :
    (dLookup (delete_document firebase_available vector_result firebase_call fileID)
        "status" = some (.str "success")
      ↔ dLookup vector_result "status" = some (.str "success"))
    ∧ dLookup (delete_document firebase_available vector_result firebase_call fileID)
        "vector_result" = some (.dict vector_result)
    ∧ dLookup (delete_document firebase_available vector_result firebase_call fileID)
        "firebase_result" = some (.dict (if firebase_available then firebase_call
          else [("status", PyVal.str "success"), ("message", PyVal.str "Firebase not available")]))
    ∧ ∀ other : List (String × PyVal),
        dLookup (delete_document firebase_available vector_result firebase_call fileID) "status"
          = dLookup (delete_document firebase_available vector_result other fileID) "status" := by
  refine ⟨?_, ?_, ?_, ?_⟩
  · by_cases h : dLookup vector_result "status" = some (.str "success") <;>
      simp [delete_document, dLookup, h]
  · simp [delete_document, dLookup]
  · by_cases h : firebase_available <;> simp [delete_document, dLookup, h]
  · intro other
    simp [delete_document, dLookup]

/-- A document entry of `get_namespace_summary` carries the five claimed
fields. -/
def hasDocKeys (d : PyVal) : Bool :=
  match d with
  | .dict kvs =>
    dHas kvs "id" && dHas kvs "name" && dHas kvs "summary" &&
      dHas kvs "chunk_count" && dHas kvs "status"
  | _ => false

theorem docEntry_hasKeys (doc_id : String) (kvs : List (String × PyVal)) :
    hasDocKeys (.dict (docEntry doc_id kvs)) = true := by
  simp [hasDocKeys, docEntry, dHas]

theorem collectDocuments_hasKeys (items : List (String × PyVal)) :
    ∀ d ∈ collectDocuments items, hasDocKeys d = true := by
  intro d hd
  unfold collectDocuments at hd
  obtain ⟨kv, -, hkv⟩ := List.mem_filterMap.mp hd
  revert hkv
  match kv with
  | (k, .dict kvs) =>
    intro hkv
    by_cases h : (dHas kvs "summary" || dHas kvs "status" || dHas kvs "chunk_count") = true
    · simp [h] at hkv
      exact hkv ▸ docEntry_hasKeys k kvs
    · simp [h] at hkv
  | (k, .none) | (k, .bool _) | (k, .int _) | (k, .float _) | (k, .str _) | (k, .list _) =>
    intro hkv; simp at hkv

/-- C10: whenever `get_namespace_summary` returns with status
`"success"`, its `document_count` equals the length of its `documents`
list and every entry of that list carries the `id`, `name`, `summary`,
`chunk_count` and `status` fields; every other outcome (in particular
every raising Firebase call) returns a record with status `"error"`
instead of raising. -/
theorem C10_namespace_summary_invariant (namespaceS : String)
    (firebase_available : Bool)
    (project_info_result ns_data_result : Except String (List (String × PyVal))) :
    ((dLookup (get_namespace_summary namespaceS firebase_available
        project_info_result ns_data_result) "status" = some (.str "success")
      ∧ ∃ docs : List PyVal,
          dLookup (get_namespace_summary namespaceS firebase_available
            project_info_result ns_data_result) "documents" = some (.list docs)
          ∧ dLookup (get_namespace_summary namespaceS firebase_available
              project_info_result ns_data_result) "document_count" = some (.int docs.length)
          ∧ ∀ d ∈ docs, hasDocKeys d = true)
    ∨ dLookup (get_namespace_summary namespaceS firebase_available
        project_info_result ns_data_result) "status" = some (.str "error"))
    ∧ (∀ e : String,
        dLookup (get_namespace_summary namespaceS true (.error e) ns_data_result)
          "status" = some (.str "error"))
    ∧ (∀ (pir : List (String × PyVal)) (e : String),
        dLookup (get_namespace_summary namespaceS true (.ok pir) (.error e))
          "status" = some (.str "error")) := by
  refine ⟨?_, ?_, ?_⟩
  case refine_2 =>
    intro e
    simp [get_namespace_summary, errorSummaryDict, dLookup]
  case refine_3 =>
    intro pir e
    simp [get_namespace_summary, errorSummaryDict, dLookup]
  unfold get_namespace_summary
  split
  · rename_i hfa
    match project_info_result with
    | .error e => right; simp [errorSummaryDict, dLookup]
    | .ok pir =>
      match ns_data_result with
      | .error e => right; simp [errorSummaryDict, dLookup]
      | .ok fr =>
        simp only
        split
        · split
          · rename_i items heq
            left
            exact ⟨by simp [dLookup], collectDocuments items, by simp [dLookup],
              by simp [dLookup], collectDocuments_hasKeys items⟩
          · right; simp [errorSummaryDict, dLookup]
        · left
          exact ⟨by simp [emptySummaryDict, dLookup], [], by simp [emptySummaryDict, dLookup],
            by simp [emptySummaryDict, dLookup], by simp⟩
  · left
    exact ⟨by simp [emptySummaryDict, dLookup], [], by simp [emptySummaryDict, dLookup],
      by simp [emptySummaryDict, dLookup], by simp⟩

theorem pyInvalidStr_of_not_str {v : PyVal} (h : PyVal.isStr v = false) :
    pyInvalidStr v = true := by
  cases v <;> simp [pyInvalidStr, PyVal.isStr] at h ⊢

theorem pyInvalidStr_of_strip_empty {s : String} (h : pyStrip s = "") :
    pyInvalidStr (.str s) = true := by
  simp [pyInvalidStr, h]

/-- C5: an empty, non-string or whitespace-only question is rejected with
the fixed invalid-question Structured Answer (`confidence_score` 0.0,
empty citation lists) before any retrieval or model call (the returned
flag is `false`); likewise an empty or whitespace-only namespace once the
question passed. -/
theorem C5_validation_rejects (question namespaceV chat_history : PyVal)
    (agentSetup : Except (String × String) Unit)
    (crew : Except (String × String) String) :
    ((question = .str "" ∨ PyVal.isStr question = false ∨
        (∃ s, question = .str s ∧ pyStrip s = "")) →
      answer_question question namespaceV chat_history agentSetup crew
        = (invalidQuestionDict, false))
    ∧ (pyInvalidStr question = false →
       (namespaceV = .str "" ∨ (∃ t, namespaceV = .str t ∧ pyStrip t = "")) →
      answer_question question namespaceV chat_history agentSetup crew
        = (invalidNamespaceDict, false))
    ∧ dLookup invalidQuestionDict "confidence_score" = some (.float 0)
    ∧ dLookup invalidQuestionDict "answer" = some (.str "Ungültige Frage")
    ∧ dLookup invalidQuestionDict "document_ids" = some (.list [])
    ∧ dLookup invalidQuestionDict "sources" = some (.list [])
    ∧ dLookup invalidQuestionDict "pages" = some (.list [])
    ∧ dLookup invalidNamespaceDict "confidence_score" = some (.float 0)
    ∧ dLookup invalidNamespaceDict "answer" = some (.str "Ungültiger Namespace")
    ∧ dLookup invalidNamespaceDict "document_ids" = some (.list [])
    ∧ dLookup invalidNamespaceDict "sources" = some (.list [])
    ∧ dLookup invalidNamespaceDict "pages" = some (.list []) := by
  refine ⟨?_, ?_, by decide, by decide, by decide, by decide, by decide,
    by decide, by decide, by decide, by decide, by decide⟩
  · intro h
    have hq : pyInvalidStr question = true := by
      rcases h with h | h | ⟨s, rfl, hs⟩
      · subst h; decide
      · exact pyInvalidStr_of_not_str h
      · exact pyInvalidStr_of_strip_empty hs
    simp [answer_question, hq]
  · intro hq h
    have hns : pyInvalidStr namespaceV = true := by
      rcases h with h | ⟨t, rfl, ht⟩
      · subst h; decide
      · exact pyInvalidStr_of_strip_empty ht
    simp [answer_question, hq, hns]

/-- Witness for C5 at concrete inputs: a whitespace-only question and a
whitespace-only namespace. -/
theorem C5_validation_rejects_witness :
    answer_question (.str "   ") (.str "ns") .none (.ok ()) (.ok "egal")
      = (invalidQuestionDict, false)
    ∧ answer_question (.str "Welche Module gibt es?") (.str " ") .none (.ok ()) (.ok "egal")
      = (invalidNamespaceDict, false) :=
  ⟨(C5_validation_rejects (.str "   ") (.str "ns") .none (.ok ()) (.ok "egal")).1
      (Or.inr (Or.inr ⟨"   ", rfl, by decide⟩)),
   (C5_validation_rejects (.str "Welche Module gibt es?") (.str " ") .none (.ok ())
      (.ok "egal")).2.1 (by decide) (Or.inr ⟨" ", rfl, by decide⟩)⟩

theorem stateGet_stateSet_same (st : List (String × List PyVal)) (ns : String)
    (h : List PyVal) : stateGet (stateSet st ns h) ns = h := by
  induction st with
  | nil => simp [stateGet, stateSet]
  | cons kv tl ih =>
    by_cases hk : kv.1 = ns <;> simp [stateGet, stateSet, hk, ih]

theorem stateGet_stateSet_other (st : List (String × List PyVal)) (ns ns' : String)
    (h : List PyVal) (hne : ns' ≠ ns) :
    stateGet (stateSet st ns h) ns' = stateGet st ns' := by
  induction st with
  | nil =>
    simp only [stateGet, stateSet]
    rw [if_neg (fun he => hne he.symm)]
  | cons kv tl ih =>
    obtain ⟨k, v⟩ := kv
    by_cases hk : k = ns
    · subst hk
      simp [stateSet, stateGet, Ne.symm hne]
    · by_cases hk' : k = ns' <;> simp [stateSet, stateGet, hk, hk', hne, ih]

theorem appendTrim_length (hist : List PyVal) (u a : PyVal) :
    (appendTrim hist u a).length = min (hist.length + 2) 10 := by
  simp only [appendTrim]
  split <;>
    rename_i hc <;>
    simp only [List.length_drop, List.length_append, List.length_cons,
      List.length_nil, gt_iff_lt, not_lt] at * <;>
    omega

/-- A `message_bot_agent` outcome that honours the collaborator's
contract as `send_message` relies on it: either the call raised or it
returned a dict. -/
def goodResp : Except String PyVal → Bool
  | .error _ => true
  | .ok v => PyVal.isDict v

theorem send_message_step_le10 (st : List (String × List PyVal))
    (u nsv : PyVal) (r : Except String PyVal)
    (hr : goodResp r = true)
    (hst : ∀ ns, (stateGet st ns).length ≤ 10) :
    ∀ ns, (stateGet (send_message_step st u nsv r) ns).length ≤ 10 := by
  intro ns
  simp only [send_message_step]
  split
  · exact hst ns
  split
  · exact hst ns
  cases r with
  | error e => exact hst ns
  | ok v =>
    cases v with
    | dict kvs =>
      simp only []
      by_cases hns : ns = pyStrOrEmpty nsv
      · rw [hns, stateGet_stateSet_same, appendTrim_length]
        omega
      · rw [stateGet_stateSet_other _ _ _ _ hns]
        exact hst ns
    | none => simp [goodResp, PyVal.isDict] at hr
    | bool b => simp [goodResp, PyVal.isDict] at hr
    | int n => simp [goodResp, PyVal.isDict] at hr
    | float q => simp [goodResp, PyVal.isDict] at hr
    | str s => simp [goodResp, PyVal.isDict] at hr
    | list l => simp [goodResp, PyVal.isDict] at hr

theorem run_send_messages_le10_aux (calls : List (PyVal × PyVal × Except String PyVal))
    (st : List (String × List PyVal))
    (hgood : ∀ c ∈ calls, goodResp c.2.2 = true)
    (hst : ∀ ns, (stateGet st ns).length ≤ 10) :
    ∀ ns, (stateGet (calls.foldl (fun s c => send_message_step s c.1 c.2.1 c.2.2) st) ns).length ≤ 10 := by
  induction calls generalizing st with
  | nil => exact hst
  | cons c tl ih =>
    exact ih _ (fun d hd => hgood d (by simp [hd]))
      (send_message_step_le10 st c.1 c.2.1 c.2.2 (hgood c (by simp)) hst)

/-- C9 (amended): after any sequence of `send_message` calls in which
every agent response respects the collaborator contract (a dict, or a
raising call), every per-namespace chat-history buffer holds at most 10
entries; and a single history update keeps a suffix of the old history
plus the new user/assistant pair of length `min (len + 2) 10` — i.e.
when the cap is exceeded exactly the most recent 10 entries survive.
(Without the contract hypothesis the cap is violable: see the
counterexample — a non-dict response appends the user entry at
`main.py:285` before `response.get` raises at line 286, skipping the
trim.) -/
theorem C9_chat_history_cap :
    (∀ (calls : List (PyVal × PyVal × Except String PyVal)),
      (∀ c ∈ calls, goodResp c.2.2 = true) →
      ∀ ns : String, (stateGet (run_send_messages calls) ns).length ≤ 10)
    ∧ (∀ (hist : List PyVal) (u a : PyVal),
      appendTrim hist u a <:+ hist ++ [mkUserMsg u, mkAsstMsg a]
      ∧ (appendTrim hist u a).length = min (hist.length + 2) 10) := by
  constructor
  · intro calls hgood ns
    exact run_send_messages_le10_aux calls [] hgood (fun _ => by simp [stateGet]) ns
  · intro hist u a
    refine ⟨?_, appendTrim_length hist u a⟩
    simp only [appendTrim]
    split
    · exact List.drop_suffix _ _
    · exact List.suffix_refl _

/-- Five contract-respecting exchanges filling the buffer to 10, then
one call whose agent response is not a dict. -/
def exCallsC9 : List (PyVal × PyVal × Except String PyVal) :=
  List.replicate 5
    ((PyVal.str "Frage"), (PyVal.str "ns"),
      Except.ok (.dict [("answer", PyVal.str "Antwort")])) ++
  [((PyVal.str "Frage"), (PyVal.str "ns"), Except.ok (PyVal.str "kein dict"))]

/-- C9 counterexample: after five successful calls (buffer at 10) one
non-dict agent response leaves 11 entries — the user entry is appended
at `main.py:285` before `response.get` raises at line 286, and the trim
at lines 289–290 never runs, so the claimed 10-entry cap is exceeded and
nothing is evicted. -/
theorem C9_counterexample :
    (stateGet (run_send_messages exCallsC9) "ns").length = 11
    ∧ 10 < (stateGet (run_send_messages exCallsC9) "ns").length := by
  exact ⟨by decide, by decide⟩

/-- Ten history entries already present (the capped buffer). -/
def exHistC9 : List PyVal := List.replicate 10 (mkUserMsg (.str "x"))

/-- Witness for C9 (amended): six contract-respecting calls stay capped
at 10, and the single-step update on a full buffer keeps the most recent
10. -/
theorem C9_chat_history_cap_witness :
    (stateGet (run_send_messages
        (List.replicate 6
          ((PyVal.str "Frage"), (PyVal.str "ns"),
            Except.ok (.dict [("answer", PyVal.str "Antwort")])))) "ns").length ≤ 10
    ∧ appendTrim exHistC9 (.str "u") (.str "a")
        <:+ exHistC9 ++ [mkUserMsg (.str "u"), mkAsstMsg (.str "a")]
    ∧ (appendTrim exHistC9 (.str "u") (.str "a")).length = min (exHistC9.length + 2) 10 :=
  ⟨C9_chat_history_cap.1
      (List.replicate 6
        ((PyVal.str "Frage"), (PyVal.str "ns"),
          Except.ok (.dict [("answer", PyVal.str "Antwort")]))) (by decide) "ns",
   (C9_chat_history_cap.2 exHistC9 (.str "u") (.str "a")).1,
   (C9_chat_history_cap.2 exHistC9 (.str "u") (.str "a")).2⟩

theorem pyFind_ge_neg1 (c : Char) (cs : List Char) : -1 ≤ pyFind c cs := by
  induction cs with
  | nil => simp [pyFind]
  | cons a t ih =>
    simp only [pyFind]
    split
    · omega
    · split <;> omega

theorem pyRFind_ge_neg1 (c : Char) (cs : List Char) : -1 ≤ pyRFind c cs := by
  induction cs with
  | nil => simp [pyRFind]
  | cons a t ih =>
    simp only [pyRFind]
    split
    · split <;> omega
    · omega

theorem pyFind_eq_neg1_iff (c : Char) (cs : List Char) :
    pyFind c cs = -1 ↔ c ∉ cs := by
  induction cs with
  | nil => simp [pyFind]
  | cons a t ih =>
    by_cases ha : a = c
    · simp [pyFind, ha]
    · by_cases hr : pyFind c t = -1
      · simp [pyFind, ha, hr, Ne.symm ha, ih.mp hr]
      · have h0 := pyFind_ge_neg1 c t
        have hmem : c ∈ t := by
          by_contra hc
          exact hr (ih.mpr hc)
        simp [pyFind, ha, hr, hmem]
        omega

theorem pyRFind_eq_neg1_iff (c : Char) (cs : List Char) :
    pyRFind c cs = -1 ↔ c ∉ cs := by
  induction cs with
  | nil => simp [pyRFind]
  | cons a t ih =>
    by_cases hr : pyRFind c t = -1
    · by_cases ha : a = c
      · simp [pyRFind, hr, ha]
      · simp [pyRFind, hr, ha, Ne.symm ha, ih.mp hr]
    · have h0 := pyRFind_ge_neg1 c t
      have hmem : c ∈ t := by
        by_contra hc
        exact hr (ih.mpr hc)
      simp [pyRFind, hr, hmem]
      omega

theorem pySlice_end_zero (cs : List Char) (a : Int) : pySlice cs a 0 = [] := by
  simp [pySlice]

theorem jsonLoads_empty : jsonLoads "" = .error "Expecting value" := rfl

/-- C3 counterexample: on the raw text `"a{b"` — which contains a `{` but
no `}` — the extractor does *not* return the "no JSON structure found"
diagnostic the claim requires for a missing brace, but the parse-failure
fallback (because `rfind` returns `-1` and `-1 + 1 = 0` escapes the
`!= -1` guard, so the empty substring is handed to the JSON parser). -/
theorem C3_counterexample :
    answerParse false "a\x7bb" = jsonFailFallbackDict false "a\x7bb" "Expecting value"
    ∧ dLookup (answerParse false "a\x7bb") "additional_info"
        ≠ some (.str "Antwort konnte nicht als strukturiertes JSON geparst werden - keine JSON-Struktur gefunden") := by
  constructor
  · rfl
  · decide

/-- C3 (amended): the extractor locates the first `{` and the last `}`;
when `{` is absent it returns the raw text verbatim with empty
`document_ids`/`sources`/`pages`, `confidence_score` 0.7 and the
"no JSON structure" diagnostic; when `{` is present but `}` is absent the
located substring is empty and it returns the same fallback fields but
with the parse-failure diagnostic; and on any parse failure of the
located substring it returns that fallback with a diagnostic carrying the
parser's error detail. -/
theorem C3_extractor_fallbacks :
    (∀ (hh : Bool) (s : String), lbrace ∉ s.data →
      answerParse hh s = noJsonFallbackDict hh s)
    ∧ (∀ (hh : Bool) (s : String), lbrace ∈ s.data → rbrace ∉ s.data →
      answerParse hh s = jsonFailFallbackDict hh s "Expecting value")
    ∧ (∀ (hh : Bool) (s : String) (e : String), lbrace ∈ s.data → rbrace ∈ s.data →
      jsonLoads (locatedJsonStr s) = .error e →
      answerParse hh s = jsonFailFallbackDict hh s e) := by
  refine ⟨?_, ?_, ?_⟩
  · intro hh s h
    have h1 : pyFind lbrace s.data = -1 := (pyFind_eq_neg1_iff _ _).mpr h
    simp [answerParse, h1]
  · intro hh s hin hout
    have h1 : pyFind lbrace s.data ≠ -1 := fun hc => ((pyFind_eq_neg1_iff _ _).mp hc) hin
    have h2 : pyRFind rbrace s.data = -1 := (pyRFind_eq_neg1_iff _ _).mpr hout
    have h4 : pySlice s.data (pyFind lbrace s.data) (pyRFind rbrace s.data + 1) = [] := by
      rw [h2]
      norm_num [pySlice_end_zero]
    have h3 : locatedJsonStr s = "" := by
      rw [locatedJsonStr, h4]
    simp [answerParse, h2, h3, jsonLoads_empty, bne_iff_ne, h1]
  · intro hh s e hin hout hload
    have h1 : pyFind lbrace s.data ≠ -1 := fun hc => ((pyFind_eq_neg1_iff _ _).mp hc) hin
    have h2 : pyRFind rbrace s.data ≠ -1 := fun hc => ((pyRFind_eq_neg1_iff _ _).mp hc) hout
    have h2' : pyRFind rbrace s.data + 1 ≠ -1 := by
      have := pyRFind_ge_neg1 rbrace s.data
      omega
    simp [answerParse, hload, bne_iff_ne, h1, h2']

/-- Witness for C3 (amended) at three concrete raw texts: no braces at
all, `{` without `}`, and a brace pair whose content is not valid JSON. -/
theorem C3_extractor_fallbacks_witness :
    answerParse false "keine Klammern"
      = noJsonFallbackDict false "keine Klammern"
    ∧ answerParse true "a\x7bb" = jsonFailFallbackDict true "a\x7bb" "Expecting value"
    ∧ answerParse false "\x7b kaputt \x7d"
      = jsonFailFallbackDict false "\x7b kaputt \x7d"
          "Expecting property name enclosed in double quotes" :=
  ⟨C3_extractor_fallbacks.1 false "keine Klammern" (by decide),
   C3_extractor_fallbacks.2.1 true "a\x7bb" (by decide) (by decide),
   C3_extractor_fallbacks.2.2 false "\x7b kaputt \x7d"
     "Expecting property name enclosed in double quotes" (by decide) (by decide) (by rfl)⟩

theorem matchPat1At_shape (cs : List Char) (g : String)
    (h : matchPat1At cs = some g) :
    ∃ c2, class2Chars.contains c2 = true ∧ g = String.mk ['\\', c2] := by
  unfold matchPat1At at h
  split at h
  · split at h
    · split at h
      · split at h
        · rename_i c2 tail heq hc2
          exact ⟨c2, hc2, (Option.some.inj h).symm⟩
        · exact absurd h (by simp)
      · exact absurd h (by simp)
    · exact absurd h (by simp)
  · exact absurd h (by simp)

theorem searchPat1_shape (cs : List Char) (g : String)
    (h : searchPat1 cs = some g) :
    ∃ c2, class2Chars.contains c2 = true ∧ g = String.mk ['\\', c2] := by
  induction cs with
  | nil => simp [searchPat1] at h
  | cons a t ih =>
    unfold searchPat1 at h
    cases hm : matchPat1At (a :: t) with
    | some g2 =>
      rw [hm] at h
      obtain ⟨c2, hc, hg⟩ := matchPat1At_shape _ _ hm
      exact ⟨c2, hc, by rw [← Option.some.inj h, hg]⟩
    | none =>
      rw [hm] at h
      exact ih h

theorem matchPat2At_shape (cs : List Char) (g : String)
    (h : matchPat2At cs = some g) :
    ∃ c2, class2Chars.contains c2 = true ∧ g = String.mk ['\\', c2] := by
  unfold matchPat2At at h
  split at h
  · split at h
    · rename_i c2 tail heq hc2
      exact ⟨c2, hc2, (Option.some.inj h).symm⟩
    · exact absurd h (by simp)
  · exact absurd h (by simp)

theorem searchPat2_shape (cs : List Char) (g : String)
    (h : searchPat2 cs = some g) :
    ∃ c2, class2Chars.contains c2 = true ∧ g = String.mk ['\\', c2] := by
  induction cs with
  | nil => simp [searchPat2] at h
  | cons a t ih =>
    unfold searchPat2 at h
    cases hm : matchPat2At (a :: t) with
    | some g2 =>
      rw [hm] at h
      obtain ⟨c2, hc, hg⟩ := matchPat2At_shape _ _ hm
      exact ⟨c2, hc, by rw [← Option.some.inj h, hg]⟩
    | none =>
      rw [hm] at h
      exact ih h

/-- Whatever the doubly-escaped patterns capture is a two-character
string starting with a backslash — never valid JSON. -/
theorem jsonLoads_capture_fails (c2 : Char) (hc : class2Chars.contains c2 = true) :
    ∃ e, jsonLoads (String.mk ['\\', c2]) = .error e := by
  have hcl : class2Chars = ['.', '*', '?', '\\'] := rfl
  rw [hcl] at hc
  have : c2 = '.' ∨ c2 = '*' ∨ c2 = '?' ∨ c2 = '\\' := by simpa using hc
  rcases this with rfl | rfl | rfl | rfl <;> exact ⟨_, rfl⟩

/-- The central consequence of the double escaping: on *every* raw text
the page-extraction of `answer_question` yields the empty list. -/
theorem extractPages_eq_nil (s : String) : extractPages s = .list [] := by
  unfold extractPages
  cases h1 : searchPat1 s.data with
  | some g =>
    obtain ⟨c2, hc, rfl⟩ := searchPat1_shape _ _ h1
    obtain ⟨e, he⟩ := jsonLoads_capture_fails c2 hc
    simp [he]
  | none =>
    cases h2 : searchPat2 s.data with
    | some g =>
      obtain ⟨c2, hc, rfl⟩ := searchPat2_shape _ _ h2
      obtain ⟨e, he⟩ := jsonLoads_capture_fails c2 hc
      simp [he]
    | none => simp

theorem answerParse_pages (hh : Bool) (s : String) :
    dLookup (answerParse hh s) "pages" = some (.list []) := by
  simp only [answerParse]
  split
  · split <;>
      simp [jsonFailFallbackDict, structuredFromParsed, unexpectedFallbackDict,
        dLookup, extractPages_eq_nil]
  · simp [noJsonFallbackDict, dLookup]

theorem answer_question_pages (question namespaceV chat_history : PyVal)
    (agentSetup : Except (String × String) Unit)
    (crew : Except (String × String) String) :
    dLookup (answer_question question namespaceV chat_history agentSetup crew).1 "pages"
      = some (.list []) := by
  unfold answer_question
  split
  · rfl
  · split
    · rfl
    · split
      · simp [outerErrorDict, dLookup]
      · split
        · simp [outerErrorDict, dLookup]
        · split
          · simp [outerErrorDict, dLookup]
          · exact answerParse_pages _ _

/-- The raw agent output of a successful turn: a well-formed structured
JSON record followed by the tool's `FOUND_PAGES` marker line (exactly the
format `pdf_search_tool` emits at line 447). -/
def c2Raw : String :=
  "\x7b\"answer\": \"Die Antwort steht auf Seite 4.\", \"document_ids\": [\"A\"], \"sources\": [\"Beleg.\"], \"confidence_score\": 0.9, \"context_used\": false, \"additional_info\": null, \"pages\": [4]\x7d\n[SYSTEM_INFO] FOUND_PAGES: [4]"

/-- C2 (code bug): on a parse-success raw text that carries the marker
`[SYSTEM_INFO] FOUND_PAGES: [4]` verbatim as the search tool emits it,
the extractor returns `pages = []`: the doubly-escaped raw-string
patterns `r'\\[SYSTEM_INFO\\] FOUND_PAGES: (\\[.*?\\])'` and
`r'FOUND_PAGES: (\\[.*?\\])'` demand literal backslashes and never match
the marker, while the singly-escaped scan the spec describes recovers
`"[4]"`, which parses to `[4]`. -/
theorem C2_pages_marker_scan_broken :
    dLookup (answerParse false c2Raw) "answer"
      = some (.str "Die Antwort steht auf Seite 4.")
    ∧ dLookup (answerParse false c2Raw) "pages" = some (.list [])
    ∧ searchPat1 c2Raw.data = Option.none
    ∧ searchPat2 c2Raw.data = Option.none
    ∧ specFoundPagesScan c2Raw.data = some "[4]"
    ∧ jsonLoads "[4]" = .ok (.list [.int 4]) :=
  ⟨rfl, rfl, rfl, rfl, rfl, rfl⟩

/-- The integer page list of a Structured Answer dict. -/
def answerPagesInts (d : List (String × PyVal)) : List Int :=
  match dLookup d "pages" with
  | some (.list ps) =>
    ps.filterMap (fun p =>
      match p with
      | .int n => some n
      | _ => Option.none)
  | _ => []

/-- C7: for every agent run — any question/namespace/history, any crew
outcome, and any fragment list retrieved in that turn — the page list of
the Structured Answer returned by `answer_question` is a subset of the
page set on the `FOUND_PAGES` line the search tool emits for those
fragments.  (It holds because the broken marker scan, see C2, makes the
answer's page list empty on every input.) -/
theorem C7_answer_pages_subset_of_found_pages
    (question namespaceV chat_history : PyVal)
    (agentSetup : Except (String × String) Unit)
    (crew : Except (String × String) String)
    (adj : PyVal → PyVal → Except String PyVal) (frags : List Fragment) :
    answerPagesInts (answer_question question namespaceV chat_history agentSetup crew).1
      ⊆ sortedPages (runSearchLoop adj frags) := by
  have hp := answer_question_pages question namespaceV chat_history agentSetup crew
  simp [answerPagesInts, hp]

theorem noFilterMatchMsg_ne_noDocsMsg (t : List String) :
    noFilterMatchMsg t ≠ noDocsMsg := by
  intro h
  have hl := congrArg String.length h
  rw [noFilterMatchMsg, noDocsMsg, String.length_append, String.length_append] at hl
  have e1 : ("KEINE DOKUMENTE IN GEFILTERTEN IDs: Keine relevanten Dokumente in ").length = 66 := rfl
  have e2 : (" gefunden.").length = 10 := rfl
  have e3 : ("KEINE DOKUMENTE GEFUNDEN: Keine relevanten Dokumente gefunden.").length = 62 := rfl
  rw [e1, e2, e3] at hl
  omega

theorem keepInFilter_eq_false (t : List String) (f : Fragment)
    (hnomatch : ∀ kvs, f.metadata = PyVal.dict kvs →
      ∀ s, filterDocId kvs = .str s → s ∉ t) :
    keepInFilter t f = false := by
  unfold keepInFilter
  cases hm : f.metadata with
  | dict kvs =>
    cases hid : filterDocId kvs with
    | str s =>
      have hmem : s ∉ t := hnomatch kvs hm s hid
      simp [PyVal.isDict, hid, hmem]
    | none => simp [PyVal.isDict, hid]
    | bool b => simp [PyVal.isDict, hid]
    | int n => simp [PyVal.isDict, hid]
    | float q => simp [PyVal.isDict, hid]
    | list l => simp [PyVal.isDict, hid]
    | dict d => simp [PyVal.isDict, hid]
  | none => simp [PyVal.isDict]
  | bool b => simp [PyVal.isDict]
  | int n => simp [PyVal.isDict]
  | float q => simp [PyVal.isDict]
  | str s => simp [PyVal.isDict]
  | list l => simp [PyVal.isDict]

/-- C6: with a non-empty document-ID allow-list, a non-empty retrieval
result none of whose fragments' owning documents lie in the list produces
the distinct "no match within filter" message — provably different from
the message produced when the retriever returns no fragments at all. -/
theorem C6_filter_miss_distinct_from_no_results
    (adj : PyVal → PyVal → Except String PyVal) (query dids : String)
    (frags : List Fragment)
    (hq : pyStrip query ≠ "")
    (hd : pyStrip dids ≠ "")
    (hne : parsedFilter dids ≠ [])
    (hfrags : frags ≠ [])
    (hnomatch : ∀ f ∈ frags, ∀ kvs, f.metadata = PyVal.dict kvs →
      ∀ s, filterDocId kvs = .str s → s ∉ parsedFilter dids) :
    pdf_search_tool adj query dids (.docs frags) = noFilterMatchMsg (parsedFilter dids)
    ∧ pdf_search_tool adj query dids (.docs []) = noDocsMsg
    ∧ noFilterMatchMsg (parsedFilter dids) ≠ noDocsMsg := by
  have hq0 : query ≠ "" := fun h => hq (by rw [h]; rfl)
  have hd0 : dids ≠ "" := fun h => hd (by rw [h]; rfl)
  have hfilter : frags.filter (keepInFilter (parsedFilter dids)) = [] := by
    rw [List.filter_eq_nil_iff]
    intro f hf
    simp [keepInFilter_eq_false (parsedFilter dids) f (hnomatch f hf)]
  refine ⟨?_, ?_, noFilterMatchMsg_ne_noDocsMsg _⟩
  · simp [pdf_search_tool, hq0, hq, hd0, hd, hne, hfrags, hfilter, List.isEmpty_iff]
  · simp [pdf_search_tool, hq0, hq, hd0, hd, List.isEmpty_iff]

/-- Witness for C6: one fragment owned by document `A`, allow-list
`["X"]`. -/
theorem C6_filter_miss_distinct_from_no_results_witness :
    pdf_search_tool (fun _ _ => .error "unbenutzt") "Frage" "X"
      (.docs [⟨true, .dict [("document_id", .str "A")], true, .str "Inhalt"⟩])
      = noFilterMatchMsg (parsedFilter "X")
    ∧ pdf_search_tool (fun _ _ => .error "unbenutzt") "Frage" "X" (.docs []) = noDocsMsg
    ∧ noFilterMatchMsg (parsedFilter "X") ≠ noDocsMsg := by
  refine C6_filter_miss_distinct_from_no_results _ "Frage" "X" _
    (by decide) (by decide) (by decide) (by exact List.cons_ne_nil _ _) ?_
  intro f hf kvs hkv s hs
  simp at hf
  subst hf
  simp at hkv
  subst hkv
  have : s = "A" := by
    have := hs
    simp [filterDocId, dGet] at this
    exact this.symm
  subst this
  decide

/-! ### C4: the summary lines of the assembled context

The spec-side characterisation works fragment by fragment: which pages a
fragment contributes to `used_pages`, whether a fragment is included in
the output (`results`), and which document ID it contributes. -/

/-- Python `hasattr(doc, 'metadata') and hasattr(doc, 'page_content')`. -/
def fragAttrs (f : Fragment) : Bool :=
  f.hasMetadata && f.hasPageContent

/-- Shapes of a `pages` metadata value for which the extraction loop
neither raises while iterating (line 342) nor raises in the
`pages[0]` lookup (line 374): an iterable list or string, or any falsy
value. -/
def pagesOkB : PyVal → Bool
  | .list _ => true
  | .str _ => true
  | v => !PyVal.truthy v

/-- A fragment as the retrieval stack actually produces it: if the
attributes are present the metadata is a dict, its `pages` value is
list/str/falsy and its owning document ID is hashable. -/
def WFfragB (f : Fragment) : Bool :=
  !fragAttrs f ||
    (match f.metadata with
     | .dict kvs => pagesOkB (dGet kvs "pages" .none) && pyHashable (docIdOfKVs 0 kvs)
     | _ => false)

/-- The pages a fragment contributes to `used_pages` (lines 341–353):
the int-convertible elements of a truthy `pages` value, then the
`page_number` value when truthy. -/
def fragPages (f : Fragment) : List Int :=
  if !fragAttrs f then []
  else
    match f.metadata with
    | .dict kvs =>
      (match dGet kvs "pages" .none with
       | .list xs => xs.filterMap pyToInt
       | .str s => (s.data.map (fun c => PyVal.str (String.mk [c]))).filterMap pyToInt
       | _ => []) ++
      (if PyVal.truthy (dGet kvs "page_number" .none) then
        (pyToInt (dGet kvs "page_number" .none)).toList
       else [])
    | _ => []

/-- Whether a fragment is included in the assembled output (for
well-formed fragments: attributes present, dict metadata, non-blank
content). -/
def fragKept (f : Fragment) : Bool :=
  fragAttrs f && PyVal.isDict f.metadata && !(pyStrip (contentStrOf f) == "")

/-- The document ID a fragment carries (at enumerate index `i`). -/
def fragDocId (i : Nat) (f : Fragment) : PyVal :=
  match f.metadata with
  | .dict kvs => docIdOfKVs i kvs
  | _ => .str ("unknown_" ++ toString i)

/-- In-order deduplication of a page list (`set` insertion order). -/
def dedupInts (xs : List Int) : List Int :=
  xs.foldl intSetAdd []

/-- The document IDs of the kept fragments, in order, indices starting
at `k`. -/
def keptIds (k : Nat) : List Fragment → List PyVal
  | [] => []
  | f :: t => (if fragKept f then [fragDocId k f] else []) ++ keptIds (k + 1) t

/-- The set of distinct document IDs of the included fragments. -/
def specFoundDocIds (frags : List Fragment) : List PyVal :=
  (keptIds 0 frags).foldl setAdd []

/-- The sorted-ascending list of distinct page numbers collected over the
whole fragment list. -/
def specSortedPages (frags : List Fragment) : List Int :=
  (dedupInts (frags.flatMap fragPages)).insertionSort (· ≤ ·)

theorem foldPages_eq_addAll (es : List PyVal) (up : List Int) :
    es.foldl
      (fun up p =>
        match pyToInt p with
        | some n => intSetAdd up n
        | Option.none => up) up
    = intSetAddAll up (es.filterMap pyToInt) := by
  induction es generalizing up with
  | nil => rfl
  | cons e t ih =>
    cases he : pyToInt e <;> simp [List.foldl, List.filterMap, he, ih, intSetAddAll]

theorem intSetAddAll_append (up : List Int) (xs ys : List Int) :
    intSetAddAll up (xs ++ ys) = intSetAddAll (intSetAddAll up xs) ys := by
  simp [intSetAddAll]

theorem pyHashable_docIdOfKVs (i j : Nat) (kvs : List (String × PyVal)) :
    pyHashable (docIdOfKVs i kvs) = pyHashable (docIdOfKVs j kvs) := by
  unfold docIdOfKVs dGet
  cases kvs.find? (fun kv => kv.1 = "document_id") with
  | some kv => rfl
  | none =>
    cases kvs.find? (fun kv => kv.1 = "pdf_id") with
    | some kv => rfl
    | none => rfl

theorem string_ne_empty_data {s : String} (h : s ≠ "") : s.data ≠ [] := by
  intro hd
  apply h
  cases s with
  | mk data => simp at hd; subst hd; rfl

/-- Under the well-formedness side conditions the `current_page` lookup
(line 371–376) cannot raise. -/
theorem currentPage_isSome (pagesV pageNumV : PyVal)
    (hpok : pagesOkB pagesV = true) :
    (if PyVal.truthy pagesV then pySub0 pagesV
     else some (if PyVal.truthy pageNumV then pageNumV else PyVal.none)).isSome = true := by
  by_cases ht : PyVal.truthy pagesV = true
  · rw [if_pos ht]
    cases pagesV with
    | list xs =>
      cases xs with
      | nil => simp [PyVal.truthy] at ht
      | cons x t => simp [pySub0]
    | str s =>
      have hs : s ≠ "" := by
        intro he
        rw [he] at ht
        simp [PyVal.truthy] at ht
      have hd := string_ne_empty_data hs
      cases hda : s.data with
      | nil => exact absurd hda hd
      | cons c cs => simp [pySub0, hda]
    | none => simp [pagesOkB, ht] at hpok
    | bool b => simp [pagesOkB, ht] at hpok
    | int n => simp [pagesOkB, ht] at hpok
    | float q => simp [pagesOkB, ht] at hpok
    | dict kvs => simp [pagesOkB, ht] at hpok
  · simp at ht
    rw [if_neg (by simp [ht])]
    rfl

/-- Effect of the content stage on the three observables: it never
touches `used_pages`, it registers the document ID exactly when the
content is non-blank, and it appends exactly one entry in that case. -/
theorem fragContentStage_effects (adj : PyVal → PyVal → Except String PyVal)
    (st : LoopState) (f : Fragment) (doc_id chunk_id pagesV pageNumV : PyVal)
    (hhash : pyHashable doc_id = true)
    (hpok : pagesOkB pagesV = true) :
    (fragContentStage adj st f doc_id chunk_id pagesV pageNumV).used_pages
        = st.used_pages
    ∧ (fragContentStage adj st f doc_id chunk_id pagesV pageNumV).found_doc_ids
        = (if pyStrip (contentStrOf f) == "" then st.found_doc_ids
           else setAdd st.found_doc_ids doc_id)
    ∧ (fragContentStage adj st f doc_id chunk_id pagesV pageNumV).results.length
        = st.results.length + (if pyStrip (contentStrOf f) == "" then 0 else 1) := by
  by_cases hc : (pyStrip (contentStrOf f) == "") = true
  · simp [fragContentStage, hc]
  · have hsome := currentPage_isSome pagesV pageNumV hpok
    obtain ⟨cp, hcp⟩ := Option.isSome_iff_exists.mp hsome
    simp only [fragContentStage, hc, if_false, hhash, Bool.not_true, Bool.false_eq_true,
      hcp]
    simp only [Bool.not_eq_true] at hc
    by_cases hmap : mapHas (st.doc_index_map ++ []) (doc_id) = true
    · simp [hc, hcp]
      split <;> simp
    · simp [hc, hcp]
      split <;> simp

/-- One loop iteration, summarised: pages are collected from every
attribute-complete fragment (blank content or not), the document ID and
the output entry only from fragments with non-blank content. -/
theorem processFrag_step (adj : PyVal → PyVal → Except String PyVal) (i : Nat)
    (st : LoopState) (f : Fragment) (hwf : WFfragB f = true) :
    (processFrag adj i st f).used_pages = intSetAddAll st.used_pages (fragPages f)
    ∧ (processFrag adj i st f).found_doc_ids =
        (if fragKept f then setAdd st.found_doc_ids (fragDocId i f)
         else st.found_doc_ids)
    ∧ (processFrag adj i st f).results.length =
        st.results.length + (if fragKept f then 1 else 0) := by
  cases hattr : fragAttrs f with
  | false =>
    have h1 : (f.hasMetadata && f.hasPageContent) = false := by
      simpa [fragAttrs] using hattr
    simp [processFrag, h1, fragPages, fragKept, fragAttrs, intSetAddAll]
  | true =>
    have h1 : (f.hasMetadata && f.hasPageContent) = true := by
      simpa [fragAttrs] using hattr
    unfold WFfragB at hwf
    rw [hattr] at hwf
    simp only [Bool.not_true, Bool.false_or] at hwf
    cases hmeta : f.metadata with
    | dict kvs =>
      rw [hmeta] at hwf
      simp only at hwf
      rw [Bool.and_eq_true] at hwf
      obtain ⟨hpok, hhash0⟩ := hwf
      have hhash : pyHashable (docIdOfKVs i kvs) = true := by
        rw [pyHashable_docIdOfKVs i 0]
        exact hhash0
      have key : ∃ elems,
          (if PyVal.truthy (dGet kvs "pages" PyVal.none) then
            pyIterate (dGet kvs "pages" PyVal.none)
           else some []) = some elems
          ∧ elems.filterMap pyToInt =
            (match dGet kvs "pages" PyVal.none with
             | .list xs => xs.filterMap pyToInt
             | .str s => (s.data.map (fun c => PyVal.str (String.mk [c]))).filterMap pyToInt
             | _ => []) := by
        cases hpv : dGet kvs "pages" PyVal.none with
        | list xs =>
          by_cases hxe : xs.isEmpty = true
          · have hxnil : xs = [] := List.isEmpty_iff.mp hxe
            subst hxnil
            exact ⟨[], by simp [PyVal.truthy], by simp⟩
          · exact ⟨xs, by simp [PyVal.truthy, hxe, pyIterate], by simp⟩
        | str s =>
          by_cases hse : s = ""
          · subst hse
            exact ⟨[], by simp [PyVal.truthy], by simp⟩
          · refine ⟨s.data.map (fun c => PyVal.str (String.mk [c])), ?_, by simp⟩
            simp [PyVal.truthy, hse, pyIterate]
        | none => exact ⟨[], by simp [PyVal.truthy], by simp⟩
        | bool b =>
          rw [hpv] at hpok
          have hb : b = false := by simpa [pagesOkB, PyVal.truthy] using hpok
          subst hb
          exact ⟨[], by simp [PyVal.truthy], by simp⟩
        | int n =>
          have hn : n = 0 := by
            rw [hpv] at hpok
            simp [pagesOkB, PyVal.truthy] at hpok
            exact hpok
          subst hn
          exact ⟨[], by simp [PyVal.truthy], by simp⟩
        | float q =>
          have hq : q = 0 := by
            rw [hpv] at hpok
            simp [pagesOkB, PyVal.truthy] at hpok
            exact hpok
          subst hq
          exact ⟨[], by simp [PyVal.truthy], by simp⟩
        | dict d =>
          have hd : d = [] := by
            rw [hpv] at hpok
            simp [pagesOkB, PyVal.truthy] at hpok
            exact hpok
          subst hd
          exact ⟨[], by simp [PyVal.truthy], by simp⟩
      obtain ⟨elems, helems, hfm⟩ := key
      have hred : processFrag adj i st f =
          fragContentStage adj
            (pageNumUpdate
              (pagesCollectUpdate
                { st with lastPageNumber := some (dGet kvs "page_number" PyVal.none) }
                elems)
              (dGet kvs "page_number" PyVal.none)) f
            (docIdOfKVs i kvs) (dGet kvs "chunk_id" PyVal.none)
            (dGet kvs "pages" PyVal.none) (dGet kvs "page_number" PyVal.none) := by
        simp only [processFrag, h1, hmeta, Bool.not_true, Bool.false_eq_true, if_false]
        rw [helems]
      have hup2 : ∀ (s : LoopState) (pn : PyVal),
          (pageNumUpdate s pn).used_pages =
            intSetAddAll s.used_pages
              (if PyVal.truthy pn then (pyToInt pn).toList else []) := by
        intro s pn
        unfold pageNumUpdate
        by_cases ht : PyVal.truthy pn = true
        · cases hti : pyToInt pn <;> simp [ht, hti, intSetAddAll]
        · simp only [Bool.not_eq_true] at ht
          simp [ht, intSetAddAll]
      have hkeep2 : ∀ (s : LoopState) (pn : PyVal),
          (pageNumUpdate s pn).found_doc_ids = s.found_doc_ids
          ∧ (pageNumUpdate s pn).results = s.results := by
        intro s pn
        unfold pageNumUpdate
        split
        · split <;> simp
        · simp
      obtain ⟨e1, e2, e3⟩ := fragContentStage_effects adj
        (pageNumUpdate
          (pagesCollectUpdate
            { st with lastPageNumber := some (dGet kvs "page_number" PyVal.none) }
            elems)
          (dGet kvs "page_number" PyVal.none)) f
        (docIdOfKVs i kvs) (dGet kvs "chunk_id" PyVal.none)
        (dGet kvs "pages" PyVal.none) (dGet kvs "page_number" PyVal.none)
        hhash hpok
      have hfp : fragPages f =
          (match dGet kvs "pages" PyVal.none with
           | .list xs => xs.filterMap pyToInt
           | .str s => (s.data.map (fun c => PyVal.str (String.mk [c]))).filterMap pyToInt
           | _ => []) ++
          (if PyVal.truthy (dGet kvs "page_number" PyVal.none) then
            (pyToInt (dGet kvs "page_number" PyVal.none)).toList
           else []) := by
        simp [fragPages, hattr, hmeta]
      have hkept : fragKept f = !(pyStrip (contentStrOf f) == "") := by
        simp [fragKept, hattr, hmeta, PyVal.isDict, fragAttrs] at *
        simp [h1]
      have hdocid : fragDocId i f = docIdOfKVs i kvs := by
        simp [fragDocId, hmeta]
      refine ⟨?_, ?_, ?_⟩
      · rw [hred, e1, hup2]
        show intSetAddAll (pagesCollectUpdate _ elems).used_pages _ = _
        rw [show ∀ (s : LoopState) (es : List PyVal),
              (pagesCollectUpdate s es).used_pages =
                intSetAddAll s.used_pages (es.filterMap pyToInt) from
            fun s es => foldPages_eq_addAll es s.used_pages]
        rw [hfm, hfp, intSetAddAll_append]
      · rw [hred, e2, (hkeep2 _ _).1]
        show (if _ then (pagesCollectUpdate _ elems).found_doc_ids
              else setAdd (pagesCollectUpdate _ elems).found_doc_ids _) = _
        rw [hkept, hdocid]
        by_cases hc : (pyStrip (contentStrOf f) == "") = true
        · simp [hc, pagesCollectUpdate]
        · simp only [Bool.not_eq_true] at hc
          simp [hc, pagesCollectUpdate]
      · rw [hred, e3, (hkeep2 _ _).2]
        rw [hkept]
        by_cases hc : (pyStrip (contentStrOf f) == "") = true
        · simp [hc, pagesCollectUpdate]
        · simp only [Bool.not_eq_true] at hc
          simp [hc, pagesCollectUpdate]
    | none => rw [hmeta] at hwf; simp at hwf
    | bool b => rw [hmeta] at hwf; simp at hwf
    | int n => rw [hmeta] at hwf; simp at hwf
    | float q => rw [hmeta] at hwf; simp at hwf
    | str s => rw [hmeta] at hwf; simp at hwf
    | list l => rw [hmeta] at hwf; simp at hwf

theorem searchLoop_aux (adj : PyVal → PyVal → Except String PyVal)
    (frags : List Fragment) (k : Nat) (st : LoopState)
    (hwf : ∀ f ∈ frags, WFfragB f = true) :
    ((List.enumFrom k frags).foldl (fun s p => processFrag adj p.1 s p.2) st).used_pages
      = intSetAddAll st.used_pages (frags.flatMap fragPages)
    ∧ ((List.enumFrom k frags).foldl (fun s p => processFrag adj p.1 s p.2) st).found_doc_ids
      = (keptIds k frags).foldl setAdd st.found_doc_ids
    ∧ ((List.enumFrom k frags).foldl (fun s p => processFrag adj p.1 s p.2) st).results.length
      = st.results.length + (frags.filter fragKept).length := by
  induction frags generalizing k st with
  | nil => simp [List.enumFrom, intSetAddAll, keptIds]
  | cons f t ih =>
    have hwf0 : WFfragB f = true := hwf f (by simp)
    have hwft : ∀ g ∈ t, WFfragB g = true := fun g hg => hwf g (by simp [hg])
    obtain ⟨s1, s2, s3⟩ := processFrag_step adj k st f hwf0
    have hfold : List.enumFrom k (f :: t) = (k, f) :: List.enumFrom (k + 1) t := rfl
    rw [hfold]
    simp only [List.foldl_cons]
    obtain ⟨i1, i2, i3⟩ := ih (k + 1) (processFrag adj k st f) hwft
    refine ⟨?_, ?_, ?_⟩
    · rw [i1, s1, List.flatMap_cons, intSetAddAll_append]
    · rw [i2, keptIds]
      by_cases hk : fragKept f = true
      · simp only [hk, if_true, s2, List.singleton_append, List.foldl_cons]
      · simp only [hk] at s2 ⊢
        simp [s2]
    · rw [i3, s3, List.filter_cons]
      by_cases hk : fragKept f = true <;> simp [hk] <;> omega

theorem runSearchLoop_spec (adj : PyVal → PyVal → Except String PyVal)
    (frags : List Fragment) (hwf : ∀ f ∈ frags, WFfragB f = true) :
    (runSearchLoop adj frags).used_pages = dedupInts (frags.flatMap fragPages)
    ∧ (runSearchLoop adj frags).found_doc_ids = specFoundDocIds frags
    ∧ (runSearchLoop adj frags).results.length = (frags.filter fragKept).length := by
  obtain ⟨a, b, c⟩ := searchLoop_aux adj frags 0 initLoopState hwf
  have he : frags.enum = List.enumFrom 0 frags := rfl
  unfold runSearchLoop
  rw [he]
  exact ⟨a, b, by simpa [initLoopState] using c⟩

theorem intSetAdd_nodup {xs : List Int} (x : Int) (h : xs.Nodup) :
    (intSetAdd xs x).Nodup := by
  unfold intSetAdd
  split
  · exact h
  · rename_i hc
    rw [List.nodup_append]
    refine ⟨h, List.nodup_singleton x, ?_⟩
    intro a ha hax
    simp at hax
    subst hax
    exact hc (List.elem_eq_true_of_mem ha)

theorem dedupInts_foldl_nodup (xs : List Int) (acc : List Int) (h : acc.Nodup) :
    (xs.foldl intSetAdd acc).Nodup := by
  induction xs generalizing acc with
  | nil => exact h
  | cons x t ih => exact ih _ (intSetAdd_nodup x h)

theorem specSortedPages_sorted (frags : List Fragment) :
    (specSortedPages frags).Sorted (· ≤ ·) :=
  List.sorted_insertionSort _ _

theorem specSortedPages_nodup (frags : List Fragment) :
    (specSortedPages frags).Nodup := by
  unfold specSortedPages
  exact (List.perm_insertionSort _ _).nodup_iff.mpr
    (dedupInts_foldl_nodup _ _ List.nodup_nil)

theorem setAdd_nodup {xs : List PyVal} (x : PyVal) (h : xs.Nodup) :
    (setAdd xs x).Nodup := by
  unfold setAdd
  split
  · exact h
  · rename_i hc
    rw [List.nodup_append]
    refine ⟨h, List.nodup_singleton x, ?_⟩
    intro a ha hax
    simp at hax
    subst hax
    exact hc (List.elem_eq_true_of_mem ha)

theorem specFoundDocIds_nodup_aux (l : List PyVal) (acc : List PyVal) (h : acc.Nodup) :
    (l.foldl setAdd acc).Nodup := by
  induction l generalizing acc with
  | nil => exact h
  | cons x t ih => exact ih _ (setAdd_nodup x h)

theorem specFoundDocIds_nodup (frags : List Fragment) :
    (specFoundDocIds frags).Nodup :=
  specFoundDocIds_nodup_aux _ _ List.nodup_nil

/-- C4 (amended): for every well-formed fragment list processed by the
unfiltered search tool in which at least one fragment yields output, the
assembled context ends with the two machine-parseable summary lines,
where `FOUND_DOCUMENT_IDS` is the duplicate-free set of document IDs of
exactly the fragments included in the output, and `FOUND_PAGES` is the
sorted-ascending duplicate-free list of the page numbers collected from
*all* attribute-complete fragments — a fragment later skipped for blank
content still contributes its pages (though not its document ID). -/
theorem C4_summary_lines (adj : PyVal → PyVal → Except String PyVal)
    (query : String) (frags : List Fragment)
    (hq : pyStrip query ≠ "")
    (hwf : ∀ f ∈ frags, WFfragB f = true)
    (hkept : ∃ f ∈ frags, fragKept f = true) :
    pdf_search_tool adj query "" (.docs frags) =
      String.intercalate "\n\n" (runSearchLoop adj frags).results ++
        "\n\n[SYSTEM_INFO] FOUND_DOCUMENT_IDS: " ++
        pyStr (.list (specFoundDocIds frags)) ++
        "\n[SYSTEM_INFO] FOUND_PAGES: " ++
        pyStr (.list ((specSortedPages frags).map PyVal.int))
    ∧ (runSearchLoop adj frags).found_doc_ids = specFoundDocIds frags
    ∧ sortedPages (runSearchLoop adj frags) = specSortedPages frags
    ∧ (specSortedPages frags).Sorted (· ≤ ·)
    ∧ (specSortedPages frags).Nodup
    ∧ (specFoundDocIds frags).Nodup := by
  obtain ⟨a, b, c⟩ := runSearchLoop_spec adj frags hwf
  have hq0 : query ≠ "" := fun h => hq (by rw [h]; rfl)
  have hfrags : frags ≠ [] := by
    obtain ⟨f, hf, -⟩ := hkept
    exact fun h => by simp [h] at hf
  have hres : (runSearchLoop adj frags).results ≠ [] := by
    intro h
    obtain ⟨f, hf, hk⟩ := hkept
    have hmem : f ∈ frags.filter fragKept := List.mem_filter.mpr ⟨hf, hk⟩
    have hlen : (frags.filter fragKept).length = 0 := by
      rw [← c, h, List.length_nil]
    rw [List.length_eq_zero] at hlen
    rw [hlen] at hmem
    simp at hmem
  have hsp : sortedPages (runSearchLoop adj frags) = specSortedPages frags := by
    unfold sortedPages specSortedPages
    rw [a]
  refine ⟨?_, b, hsp, specSortedPages_sorted frags, specSortedPages_nodup frags,
    specFoundDocIds_nodup frags⟩
  have hie : frags.isEmpty = false := by
    cases frags with
    | nil => exact absurd rfl hfrags
    | cons a t => rfl
  have hre : (runSearchLoop adj frags).results.isEmpty = false := by
    cases hcase : (runSearchLoop adj frags).results with
    | nil => exact absurd hcase hres
    | cons a t => rfl
  have hbq : (query == "") = false := by simp [hq0]
  have hbq2 : (pyStrip query == "") = false := by simp [hq]
  simp [pdf_search_tool, hbq, hbq2, hie, hre, b, hsp, String.append_empty,
    String.append_assoc]

/-- The adjacent-chunk collaborator outcome used in the C4 examples
(never consulted: the example fragments carry no `chunk_id`). -/
def exAdjC4 : PyVal → PyVal → Except String PyVal := fun _ _ => .error "nicht benutzt"

/-- An included fragment: document `A`, page 1, non-blank content. -/
def exFragA : Fragment :=
  ⟨true, .dict [("document_id", .str "A"), ("pages", .list [.int 1])],
   true, .str "relevanter Inhalt"⟩

/-- A fragment skipped for blank content: document `B`, page 7. -/
def exFragB : Fragment :=
  ⟨true, .dict [("document_id", .str "B"), ("pages", .list [.int 7])],
   true, .str ""⟩

/-- C4 counterexample: with an included fragment (document `A`, page 1)
and a fragment skipped for empty content (document `B`, page 7), the
emitted `FOUND_PAGES` list is `[1, 7]` although the included fragments
only reference page 1 — the loop collects pages *before* the empty-content
check (line 341 vs. line 360), so a skipped fragment still contributes its
pages, contradicting the claim that skipped fragments contribute neither. -/
theorem C4_counterexample :
    sortedPages (runSearchLoop exAdjC4 [exFragA, exFragB]) = [1, 7]
    ∧ (runSearchLoop exAdjC4 [exFragA, exFragB]).found_doc_ids = [.str "A"]
    ∧ fragKept exFragB = false
    ∧ fragPages exFragA = [1]
    ∧ sortedPages (runSearchLoop exAdjC4 [exFragA, exFragB])
        ≠ (dedupInts (([exFragA, exFragB].filter fragKept).flatMap fragPages)).insertionSort
            (· ≤ ·) := by
  refine ⟨rfl, rfl, rfl, rfl, by decide⟩

/-- Witness for C4 (amended) at the concrete two-fragment example. -/
theorem C4_summary_lines_witness :
    pdf_search_tool exAdjC4 "Frage" "" (.docs [exFragA, exFragB]) =
      String.intercalate "\n\n" (runSearchLoop exAdjC4 [exFragA, exFragB]).results ++
        "\n\n[SYSTEM_INFO] FOUND_DOCUMENT_IDS: " ++
        pyStr (.list (specFoundDocIds [exFragA, exFragB])) ++
        "\n[SYSTEM_INFO] FOUND_PAGES: " ++
        pyStr (.list ((specSortedPages [exFragA, exFragB]).map PyVal.int)) :=
  (C4_summary_lines exAdjC4 "Frage" [exFragA, exFragB] (by decide) (by decide)
    ⟨exFragA, by simp, by decide⟩).1
